import Mathlib

/-!
Verification development for the Mailspring-Sync mail synchronization engine.

The definitions below are a shallow embedding of the C++ sources:
  - src/MailSync/MailProcessor.cpp  (message upsert, thread reconciliation,
    two-phase unlink/delete, body retrieval side effects)
  - src/MailSync/SyncWorker.cpp     (sync cycle, incremental full scan,
    CONDSTORE fast path)
  - src/MailSync/main.cpp           (runTestAuth)

The SQL store is modelled as a Lean list of rows; SQLite exceptions are
modelled with Except over an error-code structure; machine integers are Nat
with the relevant constants spelled out (UINT32_MAX = 2^32 - 1).
-/

namespace MailsyncSpec

/-- UINT32_MAX, the sentinel base used by the two-phase unlink scheme. -/
def UINT32_MAX : Nat := 4294967295

/-- A message whose remoteUID is above this bound is "unlinked": the loop in
MailProcessor::unlinkMessagesMatchingQuery skips messages with
remoteUID > UINT32_MAX - 5. -/
def UNLINK_SKIP_BOUND : Nat := UINT32_MAX - 5

/-- The marker UID a message receives when unlinked in a given phase:
remoteUID = UINT32_MAX - phase (MailProcessor.cpp line 332). -/
def unlinkMarker (phase : Nat) : Nat := UINT32_MAX - phase

/-- True when a remoteUID is one of the unlink sentinels
(the test at MailProcessor.cpp line 323). -/
def isUnlinkedUID (uid : Nat) : Bool := uid > UNLINK_SKIP_BOUND

/-- A folder row; only the fields the claims touch. -/
structure Folder where
  id : String
  accountId : String
  path : String
  role : String
deriving Repr, DecidableEq

/-- The observable attributes extracted from a remote IMAP message by
MessageAttributesForMessage: uid, unread, starred, draft and Gmail labels. -/
structure MessageAttributes where
  uid : Nat
  unread : Bool
  starred : Bool
  draft : Bool
  labels : List String
deriving Repr, DecidableEq

/-- A local Message row.  remoteFolderId and folderId are the remote and
client folder bindings (updateMessage sets both to the same folder). -/
structure Message where
  id : String
  accountId : String
  subject : String
  headerMessageId : String
  threadId : String
  remoteUID : Nat
  remoteFolderId : String
  folderId : String
  unread : Bool
  starred : Bool
  draft : Bool
  remoteXGMLabels : List String
  syncedAt : Int
deriving Repr, DecidableEq

/-- MailProcessor::updateMessage (MailProcessor.cpp lines 152-212).
Returns none when the method performs no store write (local data newer, or
no observable attribute changed) and some m' when it writes m' inside one
transaction. -/
def updateMessage (localMsg : Message) (updated : MessageAttributes)
    (folder : Folder) (syncDataTimestamp : Int) : Option Message :=
  if localMsg.syncedAt > syncDataTimestamp then
    none
  else
    let noChanges :=
      (updated.unread == localMsg.unread) &&
      (updated.starred == localMsg.starred) &&
      (updated.draft == localMsg.draft) &&
      (updated.uid == localMsg.remoteUID) &&
      (folder.id == localMsg.remoteFolderId) &&
      (updated.labels == localMsg.remoteXGMLabels)
    if noChanges then
      none
    else
      some { localMsg with
        unread := updated.unread
        starred := updated.starred
        draft := updated.draft
        remoteUID := updated.uid
        remoteFolderId := folder.id
        folderId := folder.id
        syncedAt := syncDataTimestamp
        remoteXGMLabels := updated.labels }

/-- The state of the local message after updateMessage ran (unchanged when
the write was skipped). -/
def applyUpdateMessage (localMsg : Message) (updated : MessageAttributes)
    (folder : Folder) (syncDataTimestamp : Int) : Message :=
  (updateMessage localMsg updated folder syncDataTimestamp).getD localMsg

/-- A remote IMAP message as delivered by the wire library, together with the
deterministic id MailUtils::idForMessage derives from its immutable identity.
That id is stable across folder moves (spec section 3 and scenario E2: the
insert of a moved message collides with the existing row). -/
structure IMAPMessage where
  id : String
  uid : Nat
  gmailThreadID : Nat
  headerMessageId : String
  isMessageIDAutoGenerated : Bool
  references : List String
  subject : String
  unread : Bool
  starred : Bool
  draft : Bool
  labels : List String
deriving Repr, DecidableEq

/-- MessageAttributesForMessage on a remote message. -/
def MessageAttributesForMessage (remote : IMAPMessage) : MessageAttributes :=
  { uid := remote.uid
    unread := remote.unread
    starred := remote.starred
    draft := remote.draft
    labels := remote.labels }

/-- The Message row built by the Message constructor from a remote message,
a folder and the sync timestamp (used by MailProcessor::insertMessage; the
thread id is attached during thread reconciliation and is empty here). -/
def mkMessage (remote : IMAPMessage) (folder : Folder) (syncDataTimestamp : Int) : Message :=
  { id := remote.id
    accountId := folder.accountId
    subject := remote.subject
    headerMessageId := remote.headerMessageId
    threadId := ""
    remoteUID := remote.uid
    remoteFolderId := folder.id
    folderId := folder.id
    unread := remote.unread
    starred := remote.starred
    draft := remote.draft
    remoteXGMLabels := remote.labels
    syncedAt := syncDataTimestamp }

/-- A SQLite exception; code 19 is SQLITE_CONSTRAINT ("constraint failed",
the code tested at MailProcessor.cpp line 75). -/
structure SQLiteErr where
  code : Nat
deriving Repr, DecidableEq

/-- The local message store, modelled as the list of Message rows.  The
deterministic id is the primary key, so well-formed stores carry
pairwise-distinct ids. -/
abbrev MessageStore := List Message

/-- Whether a row with the given id exists. -/
def containsId (store : MessageStore) (i : String) : Bool :=
  store.any (fun m => m.id == i)

/-- Replace the row carrying the given id. -/
def storeReplace (store : MessageStore) (i : String) (m' : Message) : MessageStore :=
  store.map (fun m => if m.id == i then m' else m)

/-- The store-level insert of MailProcessor::insertMessage: the INSERT is
keyed by the deterministic id, so it raises SQLITE_CONSTRAINT (code 19)
exactly when a row with that id already exists. -/
def storeInsertMessage (store : MessageStore) (remote : IMAPMessage)
    (folder : Folder) (syncDataTimestamp : Int) : Except SQLiteErr MessageStore :=
  if containsId store remote.id then
    .error { code := 19 }
  else
    .ok (store ++ [mkMessage remote folder syncDataTimestamp])

/-- The try/catch skeleton of MailProcessor::insertFallbackToUpdateMessage
(MailProcessor.cpp lines 71-86), parametric in the outcome of the insert
attempt: a non-19 error is rethrown; on code 19 the local message is looked
up by the deterministic id, a missing row rethrows, otherwise updateMessage
runs on it. -/
def insertFallbackCatch {A : Type} (insertAttempt : Except SQLiteErr A)
    (localLookup : Option Message) (onUpdate : Message → A) : Except SQLiteErr A :=
  match insertAttempt with
  | .ok v => .ok v
  | .error ex =>
    if ex.code != 19 then
      .error ex
    else
      match localLookup with
      | none => .error ex
      | some localMessage => .ok (onUpdate localMessage)

/-- insertFallbackToUpdateMessage acting on the modelled store.  The result
carries the new store and the message the method returns (the inserted
message, or the local message after updateMessage mutated it). -/
def storeInsertFallbackToUpdateMessage (store : MessageStore) (remote : IMAPMessage)
    (folder : Folder) (syncDataTimestamp : Int) :
    Except SQLiteErr (MessageStore × Message) :=
  insertFallbackCatch
    ((storeInsertMessage store remote folder syncDataTimestamp).map
      (fun st => (st, mkMessage remote folder syncDataTimestamp)))
    (store.find? (fun m => m.id == remote.id))
    (fun localMessage =>
      let updatedMsg := applyUpdateMessage localMessage
        (MessageAttributesForMessage remote) folder syncDataTimestamp
      (storeReplace store remote.id updatedMsg, updatedMsg))

/-- A store->save call: the saved row and whether a delta is emitted to the
UI channel (the second argument of MailStore::save). -/
structure SaveOp where
  message : Message
  emit : Bool
deriving Repr, DecidableEq

/-- The per-message body of the loop in
MailProcessor::unlinkMessagesMatchingQuery: a message already carrying an
unlink sentinel is skipped entirely; otherwise only its remoteUID is
restamped with the current phase. -/
def unlinkOne (phase : Nat) (m : Message) : Message :=
  if isUnlinkedUID m.remoteUID then m
  else { m with remoteUID := unlinkMarker phase }

/-- MailProcessor::unlinkMessagesMatchingQuery (MailProcessor.cpp lines
303-340) over the modelled store.  The query predicate selects the matched
messages; the result is the new store together with the save calls issued
(each save passes emit = false). -/
def unlinkMessagesMatchingQuery (store : MessageStore) (query : Message → Bool)
    (phase : Nat) : MessageStore × List SaveOp :=
  (store.map (fun m => if query m then unlinkOne phase m else m),
   (store.filter query).filterMap (fun m =>
     if isUnlinkedUID m.remoteUID then none
     else some { message := { m with remoteUID := unlinkMarker phase }, emit := false }))

/-- The WHERE clause of MailProcessor::deleteMessagesStillUnlinkedFromPhase:
accountId matches and remoteUID equals UINT32_MAX - phase. -/
def deleteUnlinkedPred (aid : String) (phase : Nat) (m : Message) : Bool :=
  m.accountId == aid && m.remoteUID == unlinkMarker phase

/-- Remove every row whose id is in the given id list (store->remove models
deletion by primary key). -/
def removeByIds (ids : List String) (store : MessageStore) : MessageStore :=
  store.filter (fun m => !(ids.contains m.id))

/-- One-chunk-per-transaction loop of
MailProcessor::deleteMessagesStillUnlinkedFromPhase (MailProcessor.cpp lines
342-367): fetch up to 100 matching messages, remove them, and loop while a
full chunk was found.  The fuel argument bounds the iterations of the C++
while loop; deleteMessagesStillUnlinkedFromPhase passes enough fuel for the
loop to run to completion, as proved below. -/
def deleteUnlinkedLoop (aid : String) (phase : Nat) : Nat → MessageStore → MessageStore
  | 0, store => store
  | fuel + 1, store =>
    let chunk := (store.filter (deleteUnlinkedPred aid phase)).take 100
    let store' := removeByIds (chunk.map (fun m => m.id)) store
    if chunk.length < 100 then store'
    else deleteUnlinkedLoop aid phase fuel store'

/-- MailProcessor::deleteMessagesStillUnlinkedFromPhase: delete, in chunks
of 100 per transaction, every message of the account whose remoteUID equals
UINT32_MAX - phase. -/
def deleteMessagesStillUnlinkedFromPhase (aid : String) (phase : Nat)
    (store : MessageStore) : MessageStore :=
  deleteUnlinkedLoop aid phase (store.length + 1) store

/-- A Thread row; searchRowId is the rowid of its full-text-search row once
one exists. -/
structure Thread where
  id : String
  accountId : String
  subject : String
  gThrId : Nat
  searchRowId : Option Nat
  categoriesSearchString : String
deriving Repr, DecidableEq

/-- The Thread row the Thread constructor builds in
MailProcessor::insertMessage when no existing thread matched: fresh id from
the message id, subject copied from the message. -/
def newThreadForMessage (msgId accountId subject : String) (gThrId : Nat) : Thread :=
  { id := msgId
    accountId := accountId
    subject := subject
    gThrId := gThrId
    searchRowId := none
    categoriesSearchString := "" }

/-- A ThreadReference row. -/
structure ThreadReference where
  threadId : String
  accountId : String
  headerMessageId : String
deriving Repr, DecidableEq

/-- Lookup used when the server provides a Gmail thread id: match the thread
on gThrId. -/
def findThreadByGThrId (threads : List Thread) (g : Nat) : Option Thread :=
  threads.find? (fun t => t.gThrId == g)

/-- The ThreadReference join of MailProcessor::insertMessage: the first
ThreadReference row of the account whose headerMessageId is among the
candidate ids, joined back to its Thread (LIMIT 1). -/
def findThreadByReferences (threadRefs : List ThreadReference) (threads : List Thread)
    (accountId : String) (candidateIds : List String) : Option Thread :=
  match threadRefs.find? (fun r =>
      r.accountId == accountId && candidateIds.contains r.headerMessageId) with
  | none => none
  | some r => threads.find? (fun t => t.id == r.threadId)

/-- Thread reconciliation of MailProcessor::insertMessage (lines 101-127):
match on the Gmail thread id when the server provides one; otherwise, for a
non-auto-generated Message-Id, match through ThreadReference using the
message's own Message-Id plus the first min(50, count) references; create a
new thread (subject copied from the message) when nothing matched. -/
def insertMessageChooseThread (threads : List Thread) (threadRefs : List ThreadReference)
    (accountId : String) (remote : IMAPMessage) : Thread :=
  let found :=
    if remote.gmailThreadID != 0 then
      findThreadByGThrId threads remote.gmailThreadID
    else if !remote.isMessageIDAutoGenerated then
      findThreadByReferences threadRefs threads accountId
        (remote.headerMessageId :: remote.references.take 50)
    else
      none
  found.getD (newThreadForMessage remote.id accountId remote.subject remote.gmailThreadID)

/-- One INSERT OR IGNORE into ThreadReference: the row is added unless the
account already maps this headerMessageId. -/
def insertOrIgnoreThreadReference (threadId accountId : String)
    (table : List ThreadReference) (hmid : String) : List ThreadReference :=
  if table.any (fun r => r.accountId == accountId && r.headerMessageId == hmid) then table
  else table ++ [{ threadId := threadId, accountId := accountId, headerMessageId := hmid }]

/-- MailProcessor::upsertThreadReferences (lines 430-447): upsert a row for
the message's own Message-Id and then for the first min(100, count)
references. -/
def upsertThreadReferences (table : List ThreadReference)
    (threadId accountId headerMessageId : String) (references : List String) :
    List ThreadReference :=
  (headerMessageId :: references.take 100).foldl
    (insertOrIgnoreThreadReference threadId accountId) table

/-- A contact object from a message's to/cc/bcc/from JSON lists. -/
structure JsonContact where
  email : Option String
  name : Option String
deriving Repr, DecidableEq

/-- Recipient and sender fields read by
MailProcessor::appendToThreadSearchContent. -/
structure MessageSearchFields where
  toList : List JsonContact
  ccList : List JsonContact
  bccList : List JsonContact
  fromList : List JsonContact
deriving Repr, DecidableEq

/-- A ThreadSearch full-text row. -/
structure ThreadSearchRow where
  to_ : String
  from_ : String
  body : String
  categories : String
  content_id : String
deriving Repr, DecidableEq

/-- The ThreadSearch table keyed by rowid. -/
abbrev ThreadSearchTable := List (Nat × ThreadSearchRow)

/-- Append a contact's email and name to an accumulator string, the way the
loops at MailProcessor.cpp lines 388-403 do. -/
def appendContact (acc : String) (c : JsonContact) : String :=
  let acc := match c.email with
    | some e => acc ++ " " ++ e
    | none => acc
  match c.name with
  | some n => acc ++ " " ++ n
  | none => acc

/-- MailProcessor::appendToThreadSearchContent (lines 369-428).  Reads the
thread's current ThreadSearch row when it has one, appends the optional
message's recipients and the optional body text (first 5000 characters),
then updates the row in place or inserts a fresh one.  Returns the table,
the thread (whose searchRowId the insert branch sets) and the next fresh
rowid. -/
def appendToThreadSearchContent (table : ThreadSearchTable) (nextRowid : Nat)
    (thread : Thread) (messageToAppend : Option MessageSearchFields)
    (bodyToAppend : Option String) : ThreadSearchTable × Thread × Nat :=
  let categories := thread.categoriesSearchString
  let start : String × String × String :=
    match thread.searchRowId with
    | some rid =>
      match table.find? (fun p => p.1 == rid) with
      | some p => (p.2.to_, p.2.from_, p.2.body)
      | none => ("", "", thread.subject)
    | none => ("", "", thread.subject)
  let to0 := start.1
  let from0 := start.2.1
  let body0 := start.2.2
  let to1 := match messageToAppend with
    | some msg => ((msg.toList ++ msg.ccList ++ msg.bccList).foldl appendContact to0)
    | none => to0
  let from1 := match messageToAppend with
    | some msg => msg.fromList.foldl appendContact from0
    | none => from0
  let body1 := match bodyToAppend with
    | some b => body0 ++ " " ++ String.mk (b.data.take 5000)
    | none => body0
  match thread.searchRowId with
  | some rid =>
    (table.map (fun p =>
      if p.1 == rid then
        (p.1, { p.2 with to_ := to1, from_ := from1, body := body1, categories := categories })
      else p),
     thread, nextRowid)
  | none =>
    (table ++ [(nextRowid,
      { to_ := to1, from_ := from1, body := body1, categories := categories,
        content_id := thread.id })],
     { thread with searchRowId := some nextRowid }, nextRowid + 1)

/-- The File-row insert loop of MailProcessor::retrievedMessageBody
(MailProcessor.cpp lines 271-277).  Each item carries the file id and the
outcome of store->save for it (none = success, some err = the SQLite
exception save raised).  The catch block swallows every SQLite exception,
so the loop always completes and keeps exactly the files whose save
succeeded. -/
def retrievedMessageBodySaveFiles (fileRows : List String)
    (attempts : List (String × Option SQLiteErr)) : List String :=
  attempts.foldl (fun rows item =>
    match item.2 with
    | none => rows ++ [item.1]
    | some _ => rows) fileRows

/-- The behavior the specification ascribes to the same loop, stated from
the spec's words for comparison: only unique-constraint violations
(SQLITE_CONSTRAINT, code 19) are ignored; every other database error
propagates to the caller. -/
def retrievedMessageBodySaveFilesClaimed (fileRows : List String)
    (attempts : List (String × Option SQLiteErr)) :
    Except SQLiteErr (List String) :=
  attempts.foldlM (fun rows item =>
    match item.2 with
    | none => .ok (rows ++ [item.1])
    | some e => if e.code == 19 then .ok rows else .error e) fileRows

/-- The per-folder localStatus sync cursor (spec section 3). A missing key
reads as the C++ default: fullScanHead defaults to UINT32_MAX and
fullScanTime to 0 (SyncWorker.cpp lines 343-346). -/
structure FolderLocalStatus where
  uidvalidity : Option Nat := none
  uidnext : Option Nat := none
  highestmodseq : Option Nat := none
  fullScanHead : Option Nat := none
  fullScanTime : Option Int := none
deriving Repr, DecidableEq

/-- The remote folder status returned by session.folderStatus. -/
structure IMAPFolderStatus where
  uidValidity : Nat
  uidNext : Nat
  messageCount : Nat
  highestModSeqValue : Nat
deriving Repr, DecidableEq

/-- The ten-minute full-scan cooldown (SyncWorker.cpp line 20). -/
def TEN_MINUTES : Int := 60 * 10

/-- The outcome of one SyncWorker::syncFolderFullScanIncremental step: the
UID range handed to syncFolderUIDRange as (location, length), i.e. the
half-open interval scanned is [location, location + length); the new
localStatus; and the returned more-work flag. -/
structure FullScanStep where
  scannedRange : Option (Nat × Nat)
  status : FolderLocalStatus
  moreWork : Bool
deriving Repr, DecidableEq

/-- The trigger for starting a new deep scan (SyncWorker.cpp line 349): the
stored fullScanHead is still the UINT32_MAX default, or the server lacks
QRESYNC and more than ten minutes have passed since the last scan. -/
def fullScanTriggered (ls0 : FolderLocalStatus) (qresyncSupported : Bool) (now : Int) : Bool :=
  (ls0.fullScanHead.getD UINT32_MAX == UINT32_MAX) ||
  (!qresyncSupported && decide (now - ls0.fullScanTime.getD 0 > TEN_MINUTES))

/-- SyncWorker::syncFolderFullScanIncremental (SyncWorker.cpp lines
337-378). -/
def syncFolderFullScanIncremental (ls0 : FolderLocalStatus)
    (remoteStatus : IMAPFolderStatus) (qresyncSupported : Bool) (now : Int) :
    FullScanStep :=
  let storedHead := ls0.fullScanHead.getD UINT32_MAX
  let startFresh := fullScanTriggered ls0 qresyncSupported now
  let ls1 := if startFresh then { ls0 with uidnext := some remoteStatus.uidNext } else ls0
  let fullScanHead := if startFresh then remoteStatus.uidNext else storedHead
  let fullScanChunkSize : Nat := if startFresh then 200 else 1000
  if fullScanHead == 1 then
    { scannedRange := none, status := ls1, moreWork := false }
  else
    let chunkNextHead0 :=
      if fullScanHead > fullScanChunkSize then fullScanHead - fullScanChunkSize else 1
    let chunkNextHead :=
      if remoteStatus.messageCount < fullScanChunkSize then 1 else chunkNextHead0
    { scannedRange := some (chunkNextHead, fullScanHead - chunkNextHead)
      status := { ls1 with fullScanHead := some chunkNextHead, fullScanTime := some now }
      moreWork := true }

/-- The result of session.syncMessagesByUID: the modified-or-added messages
and, when the server supports QRESYNC, the vanished UIDs. -/
structure IMAPSyncResult where
  modifiedOrAddedMessages : List IMAPMessage
  vanishedMessages : Option (List Nat)
deriving Repr, DecidableEq

/-- The per-message dispatch of SyncWorker::syncFolderChangesViaCondstore
(lines 495-507): look the message up locally by deterministic id; insert
when absent (the store-level effect of insertFallbackToUpdateMessage on a
fresh id), update in place when present. -/
def condstoreApplyOne (folder : Folder) (syncDataTimestamp : Int)
    (store : MessageStore) (remote : IMAPMessage) : MessageStore :=
  match store.find? (fun m => m.id == remote.id) with
  | none => store ++ [mkMessage remote folder syncDataTimestamp]
  | some localMsg =>
    storeReplace store remote.id
      (applyUpdateMessage localMsg (MessageAttributesForMessage remote) folder
        syncDataTimestamp)

/-- The modified-or-added loop of syncFolderChangesViaCondstore. -/
def condstoreApplyModified (folder : Folder) (syncDataTimestamp : Int)
    (store : MessageStore) (msgs : List IMAPMessage) : MessageStore :=
  msgs.foldl (condstoreApplyOne folder syncDataTimestamp) store

/-- The query built for vanished UIDs (SyncWorker.cpp line 514): messages of
this folder whose folder-bound IMAP UID is among the vanished set.  In this
model a linked row's folder UID binding is its remoteUID. -/
def vanishedQuery (folder : Folder) (vanishedUIDs : List Nat) (m : Message) : Bool :=
  m.folderId == folder.id && vanishedUIDs.contains m.remoteUID

/-- The outcome of one syncFolderChangesViaCondstore call: the store, the
folder localStatus, and whether the shallow top-500 UID-range scan was
performed (its own store effects are those of syncFolderUIDRange and are
modelled separately). -/
structure CondstoreOutcome where
  store : MessageStore
  status : FolderLocalStatus
  ranShallowScan : Bool
deriving Repr, DecidableEq

/-- SyncWorker::syncFolderChangesViaCondstore (SyncWorker.cpp lines 461-523)
on the non-error IMAP path, with the wire call's result passed in. -/
def syncFolderChangesViaCondstore (ls : FolderLocalStatus)
    (remoteStatus : IMAPFolderStatus) (folder : Folder) (unlinkPhase : Nat)
    (store : MessageStore) (syncResult : IMAPSyncResult)
    (syncDataTimestamp : Int) : CondstoreOutcome :=
  let modseq := ls.highestmodseq.getD 0
  let remoteModseq := remoteStatus.highestModSeqValue
  let remoteUIDNext := remoteStatus.uidNext
  if modseq == remoteModseq then
    { store := store, status := ls, ranShallowScan := false }
  else
    let store1 := condstoreApplyModified folder syncDataTimestamp store
      syncResult.modifiedOrAddedMessages
    let status1 := { ls with uidnext := some remoteUIDNext,
                             highestmodseq := some remoteModseq }
    match syncResult.vanishedMessages with
    | some vanishedUIDs =>
      { store := (unlinkMessagesMatchingQuery store1
          (vanishedQuery folder vanishedUIDs) unlinkPhase).1
        status := status1
        ranShallowScan := false }
    | none =>
      { store := store1, status := status1, ranShallowScan := true }

/-- A mailcore error code, as far as runTestAuth distinguishes them. -/
inductive MailErrorCode where
  | noError
  | invalidAccount
  | otherError (n : Nat)
deriving Repr, DecidableEq

/-- The external outcomes runTestAuth depends on: the IMAP connect and
folder-list fetch, the roles of the fetched folders, and the SMTP connect
and login.  Each wire call assigns its result to the shared err out
parameter unconditionally (the mailcore collaborators write *pError on
success as well as on failure). -/
structure TestAuthEnv where
  imapConnectErr : MailErrorCode
  fetchFoldersErr : MailErrorCode
  folderRoles : List String
  smtpConnectErr : MailErrorCode
  smtpLoginErr : MailErrorCode
deriving Repr, DecidableEq

/-- The one-line JSON reply of runTestAuth plus the process exit code. -/
structure TestAuthReply where
  exitCode : Nat
  error : Option MailErrorCode
  errorService : String
deriving Repr, DecidableEq

/-- The reply emitted at the done label for a non-ErrorNone code. -/
def testAuthFail (e : MailErrorCode) (service : String) : TestAuthReply :=
  { exitCode := 1, error := some e, errorService := service }

/-- runTestAuth (main.cpp lines 116-176).  After the folder-role loop the
local variable err holds ErrorInvalidAccount when no folder has role all or
inbox, but the code proceeds straight into the SMTP section, whose
smtp.connect(&err) call overwrites err before any check reads it; the
folder-role verdict therefore only survives if the SMTP calls fail and
replace it with their own error. -/
def runTestAuth (env : TestAuthEnv) : TestAuthReply :=
  if env.imapConnectErr != .noError then
    testAuthFail env.imapConnectErr "imap"
  else if env.fetchFoldersErr != .noError then
    testAuthFail env.fetchFoldersErr "imap"
  else
    let errAfterRoleCheck :=
      if env.folderRoles.any (fun role => role == "all" || role == "inbox") then
        MailErrorCode.noError
      else
        MailErrorCode.invalidAccount
    -- errorService becomes "smtp"; smtp.connect(&err) overwrites errAfterRoleCheck
    let _ := errAfterRoleCheck
    if env.smtpConnectErr != .noError then
      testAuthFail env.smtpConnectErr "smtp"
    else if env.smtpLoginErr != .noError then
      testAuthFail env.smtpLoginErr "smtp"
    else
      { exitCode := 0, error := none, errorService := "smtp" }

/-- What the specification says runTestAuth does, stated from the spec's
words for comparison: test mode requires the presence of a folder with role
all or inbox, and an account failing the requirement yields a non-null
error and exit code 1. -/
def runTestAuthClaimed (env : TestAuthEnv) : TestAuthReply :=
  if env.imapConnectErr != .noError then
    testAuthFail env.imapConnectErr "imap"
  else if env.fetchFoldersErr != .noError then
    testAuthFail env.fetchFoldersErr "imap"
  else if !(env.folderRoles.any (fun role => role == "all" || role == "inbox")) then
    testAuthFail .invalidAccount "imap"
  else if env.smtpConnectErr != .noError then
    testAuthFail env.smtpConnectErr "smtp"
  else if env.smtpLoginErr != .noError then
    testAuthFail env.smtpLoginErr "smtp"
  else
    { exitCode := 0, error := none, errorService := "smtp" }

/-- What the folder scans of one background sync cycle can do to one
message row: folder scans either report it missing from the folder its row
is bound to (unlink, through unlinkMessagesMatchingQuery with the cycle's
phase) or re-observe it in some folder with a real remote UID (through
insertFallbackToUpdateMessage / updateMessage, which overwrite remoteUID
with the server-reported uid). -/
inductive ScanEvent where
  | unlink
  | observe (uid : Nat)
deriving Repr, DecidableEq

/-- Effect of one scan event on a row's remoteUID. -/
def applyScanEvent (phase : Nat) (uid : Nat) : ScanEvent → Nat
  | .unlink => if isUnlinkedUID uid then uid else unlinkMarker phase
  | .observe r => r

/-- Effect of a cycle's scan events on a row's remoteUID. -/
def applyScanEvents (phase : Nat) (uid : Nat) (evs : List ScanEvent) : Nat :=
  evs.foldl (applyScanEvent phase) uid

/-- Apply each row's scan events across the store (the scans of SyncWorker::
syncNow lines 188-231, projected onto remoteUID, the only field the
two-phase scheme reads). -/
def applyScans (phase : Nat) (events : String → List ScanEvent)
    (store : MessageStore) : MessageStore :=
  store.map (fun m => { m with remoteUID := applyScanEvents phase m.remoteUID (events m.id) })

/-- The phase flip at SyncWorker.cpp line 236. -/
def flipPhase (phase : Nat) : Nat :=
  if phase == 1 then 2 else 1

/-- One full background sync cycle as far as the two-phase scheme is
concerned (SyncWorker::syncNow lines 188-238): run the folder scans with
the current unlinkPhase, flip the phase, then delete every message still
carrying the flipped phase's marker.  Returns the new phase and store. -/
def syncCycleTwoPhase (aid : String) (phase : Nat)
    (events : String → List ScanEvent) (store : MessageStore) :
    Nat × MessageStore :=
  let scanned := applyScans phase events store
  let phase' := flipPhase phase
  (phase', deleteMessagesStillUnlinkedFromPhase aid phase' scanned)

/-- In a cycle driven by one remote snapshot per folder, a row's events are
unlinks (from folders that no longer list it) followed by observations
(from the folder that does): once a scan has re-observed the row and bound
it to a folder, later scans of that cycle cannot report it missing.  A
trace is well formed when no unlink follows an observation. -/
def wellFormedTrace : List ScanEvent → Bool
  | [] => true
  | .unlink :: rest => wellFormedTrace rest
  | .observe _ :: rest => rest.all (fun e => match e with | .observe _ => true | .unlink => false)

/-- Whether a trace re-observes the row. -/
def hasObserve (evs : List ScanEvent) : Bool :=
  evs.any (fun e => match e with | .observe _ => true | .unlink => false)

/-- Whether every observation in a trace restores a real (non-sentinel)
remote UID. -/
def observesRealUIDs (evs : List ScanEvent) : Bool :=
  evs.all (fun e => match e with
    | .observe r => !(isUnlinkedUID r)
    | .unlink => true)

/-! ### Helper lemmas -/

/-- In a store whose ids are pairwise distinct (the deterministic id is the
primary key), two member rows with the same id are the same row. -/
theorem eq_of_mem_of_id_eq {store : MessageStore}
    (h : (store.map Message.id).Nodup) {m m' : Message}
    (hm : m ∈ store) (hm' : m' ∈ store) (hid : m.id = m'.id) : m = m' := by
  induction store with
  | nil => cases hm
  | cons a t ih =>
    simp only [List.map_cons, List.nodup_cons] at h
    rcases List.mem_cons.mp hm with rfl | hmt
    · rcases List.mem_cons.mp hm' with rfl | hmt'
      · rfl
      · exact absurd (hid ▸ List.mem_map_of_mem Message.id hmt') h.1
    · rcases List.mem_cons.mp hm' with rfl | hmt'
      · exact absurd (hid ▸ List.mem_map_of_mem Message.id hmt) h.1
      · exact ih h.2 hmt hmt'

/-- For a member of a store with pairwise-distinct ids, membership of its id
in the ids of a selection from the store is membership in the selection. -/
theorem contains_sub_ids_eq {store sub : MessageStore}
    (h : (store.map Message.id).Nodup)
    (hsub : ∀ x ∈ sub, x ∈ store) {m : Message} (hm : m ∈ store) :
    (sub.map Message.id).contains m.id = decide (m ∈ sub) := by
  by_cases hms : m ∈ sub
  · simp only [hms, decide_True]
    exact List.elem_iff.mpr (List.mem_map_of_mem Message.id hms)
  · simp only [hms, decide_False]
    rw [Bool.eq_false_iff]
    intro hc
    obtain ⟨x, hx, hxid⟩ := List.mem_map.mp (List.elem_iff.mp hc)
    exact hms (eq_of_mem_of_id_eq h (hsub x hx) hm hxid ▸ hx)

/-- Removing a selection of rows by id removes exactly the selected rows,
in a store with pairwise-distinct ids. -/
theorem removeByIds_sub_eq_filter {store sub : MessageStore}
    (hnd : (store.map Message.id).Nodup) (hsub : ∀ x ∈ sub, x ∈ store) :
    removeByIds (sub.map (fun m => m.id)) store
      = store.filter (fun m => !(decide (m ∈ sub))) := by
  unfold removeByIds
  apply List.filter_congr
  intro m hm
  exact congrArg (fun b => !b) (contains_sub_ids_eq hnd hsub hm)

/-- Unfolding of one iteration of the chunked delete loop. -/
theorem deleteUnlinkedLoop_succ (aid : String) (phase fuel : Nat) (store : MessageStore) :
    deleteUnlinkedLoop aid phase (fuel + 1) store =
      (let chunk := (store.filter (deleteUnlinkedPred aid phase)).take 100
       let store' := removeByIds (chunk.map (fun m => m.id)) store
       if chunk.length < 100 then store' else deleteUnlinkedLoop aid phase fuel store') := rfl

/-- The chunked delete loop removes exactly the matching rows once the fuel
dominates the number of matches. -/
theorem deleteUnlinkedLoop_eq_filter (aid : String) (phase : Nat) :
    ∀ (fuel : Nat) (store : MessageStore), (store.map Message.id).Nodup →
      (store.filter (deleteUnlinkedPred aid phase)).length ≤ fuel * 100 →
      deleteUnlinkedLoop aid phase fuel store
        = store.filter (fun m => !(deleteUnlinkedPred aid phase m)) := by
  intro fuel
  induction fuel with
  | zero =>
    intro store hnd hlen
    have hnil : store.filter (deleteUnlinkedPred aid phase) = [] :=
      List.eq_nil_of_length_eq_zero (Nat.le_zero.mp (by simpa using hlen))
    have hall := List.filter_eq_nil_iff.mp hnil
    simp only [deleteUnlinkedLoop]
    symm
    apply List.filter_eq_self.mpr
    intro a ha
    exact congrArg (fun b => !b) (Bool.eq_false_iff.mpr (hall a ha))
  | succ fuel ih =>
    intro store hnd hlen
    rw [deleteUnlinkedLoop_succ]
    simp only []
    have hsubmem : ∀ x ∈ (store.filter (deleteUnlinkedPred aid phase)).take 100, x ∈ store :=
      fun x hx => List.mem_of_mem_filter (List.mem_of_mem_take hx)
    have hrem := removeByIds_sub_eq_filter hnd hsubmem
    by_cases h100 : ((store.filter (deleteUnlinkedPred aid phase)).take 100).length < 100
    · rw [if_pos h100, hrem]
      have hflen : (store.filter (deleteUnlinkedPred aid phase)).length < 100 := by
        rcases Nat.lt_or_ge (store.filter (deleteUnlinkedPred aid phase)).length 100 with h | h
        · exact h
        · exfalso
          rw [List.length_take, Nat.min_eq_left h] at h100
          exact absurd h100 (lt_irrefl 100)
      have hsubeq : (store.filter (deleteUnlinkedPred aid phase)).take 100
          = store.filter (deleteUnlinkedPred aid phase) :=
        List.take_of_length_le (Nat.le_of_lt hflen)
      apply List.filter_congr
      intro m hm
      rw [hsubeq]
      by_cases hpm : deleteUnlinkedPred aid phase m = true
      · simp [List.mem_filter, hm, hpm]
      · simp [List.mem_filter, hm, hpm]
    · rw [if_neg h100]
      have hndsub : (store.filter (deleteUnlinkedPred aid phase)).Nodup :=
        List.Nodup.filter _ (List.Nodup.of_map Message.id hnd)
      have hdisj := List.disjoint_take_drop (m := 100) (n := 100) hndsub (Nat.le_refl 100)
      -- the store after removing this chunk
      rw [hrem]
      have hnd' : ((store.filter (fun m =>
          !(decide (m ∈ (store.filter (deleteUnlinkedPred aid phase)).take 100)))).map
            Message.id).Nodup :=
        List.Nodup.sublist (List.Sublist.map Message.id (List.filter_sublist store)) hnd
      have hdrop : (store.filter (fun m =>
          !(decide (m ∈ (store.filter (deleteUnlinkedPred aid phase)).take 100)))).filter
            (deleteUnlinkedPred aid phase)
          = (store.filter (deleteUnlinkedPred aid phase)).drop 100 := by
        rw [List.filter_filter]
        have hcomm : store.filter (fun a => deleteUnlinkedPred aid phase a &&
            !(decide (a ∈ (store.filter (deleteUnlinkedPred aid phase)).take 100)))
            = store.filter (fun a =>
              (!(decide (a ∈ (store.filter (deleteUnlinkedPred aid phase)).take 100))) &&
              deleteUnlinkedPred aid phase a) :=
          List.filter_congr (fun a _ => Bool.and_comm _ _)
        rw [hcomm, ← List.filter_filter]
        have key : ((store.filter (deleteUnlinkedPred aid phase)).take 100 ++
            (store.filter (deleteUnlinkedPred aid phase)).drop 100).filter
              (fun a => !(decide (a ∈ (store.filter (deleteUnlinkedPred aid phase)).take 100)))
            = (store.filter (deleteUnlinkedPred aid phase)).drop 100 := by
          rw [List.filter_append]
          have htake : ((store.filter (deleteUnlinkedPred aid phase)).take 100).filter
              (fun a => !(decide (a ∈ (store.filter (deleteUnlinkedPred aid phase)).take 100))) = [] := by
            apply List.filter_eq_nil_iff.mpr
            intro x hx
            simp [hx]
          have hdropself : ((store.filter (deleteUnlinkedPred aid phase)).drop 100).filter
              (fun a => !(decide (a ∈ (store.filter (deleteUnlinkedPred aid phase)).take 100)))
              = (store.filter (deleteUnlinkedPred aid phase)).drop 100 := by
            apply List.filter_eq_self.mpr
            intro x hx
            have hnotin : x ∉ (store.filter (deleteUnlinkedPred aid phase)).take 100 :=
              fun hxt => hdisj hxt hx
            simp [hnotin]
          rw [htake, hdropself, List.nil_append]
        rw [List.take_append_drop] at key
        exact key
      have hlen' : ((store.filter (fun m =>
          !(decide (m ∈ (store.filter (deleteUnlinkedPred aid phase)).take 100)))).filter
            (deleteUnlinkedPred aid phase)).length ≤ fuel * 100 := by
        rw [hdrop, List.length_drop]
        omega
      rw [ih _ hnd' hlen']
      rw [List.filter_filter]
      apply List.filter_congr
      intro m hm
      by_cases hpm : deleteUnlinkedPred aid phase m = true
      · simp [hpm]
      · have hnotin : m ∉ (store.filter (deleteUnlinkedPred aid phase)).take 100 := by
          intro hmem
          exact hpm (List.mem_filter.mp (List.mem_of_mem_take hmem)).2
        simp [hpm, hnotin]

/-- MailProcessor::deleteMessagesStillUnlinkedFromPhase removes exactly the
account's messages whose remoteUID carries the given phase's marker. -/
theorem deleteMessagesStillUnlinkedFromPhase_eq_filter (aid : String) (phase : Nat)
    (store : MessageStore) (hnd : (store.map Message.id).Nodup) :
    deleteMessagesStillUnlinkedFromPhase aid phase store
      = store.filter (fun m => !(deleteUnlinkedPred aid phase m)) := by
  apply deleteUnlinkedLoop_eq_filter aid phase _ store hnd
  have := List.length_filter_le (deleteUnlinkedPred aid phase) store
  omega

/-- The unlink pass never changes a row's id. -/
theorem unlink_fst_map_id (store : MessageStore) (q : Message → Bool) (phase : Nat) :
    (unlinkMessagesMatchingQuery store q phase).1.map Message.id = store.map Message.id := by
  simp only [unlinkMessagesMatchingQuery, List.map_map]
  apply List.map_congr_left
  intro m _
  simp only [Function.comp]
  by_cases hq : q m = true
  · rw [if_pos hq]
    unfold unlinkOne
    by_cases hu : isUnlinkedUID m.remoteUID = true
    · rw [if_pos hu]
    · rw [if_neg hu]
  · rw [if_neg hq]

/-! ### Claim theorems -/

/-- Claim C3: updateMessage(local, remote, folder, syncTs) leaves the store
unchanged when local.syncedAt > syncTs, and also when every observable
attribute (unread, starred, draft, remoteUID, folder binding, Gmail labels)
is already equal; otherwise it updates flags, UID, folder binding, labels
and syncedAt inside one transaction (the single written row).  Consequently
the message's syncedAt value never decreases across an update. -/
theorem claim_C3_updateMessage_skip_rules_and_monotone
    (localMsg : Message) (updated : MessageAttributes) (folder : Folder) (ts : Int) :
    (localMsg.syncedAt > ts → updateMessage localMsg updated folder ts = none)
    ∧ ((updated.unread = localMsg.unread ∧ updated.starred = localMsg.starred ∧
        updated.draft = localMsg.draft ∧ updated.uid = localMsg.remoteUID ∧
        folder.id = localMsg.remoteFolderId ∧ updated.labels = localMsg.remoteXGMLabels) →
       updateMessage localMsg updated folder ts = none)
    ∧ (localMsg.syncedAt ≤ ts →
       ¬(updated.unread = localMsg.unread ∧ updated.starred = localMsg.starred ∧
         updated.draft = localMsg.draft ∧ updated.uid = localMsg.remoteUID ∧
         folder.id = localMsg.remoteFolderId ∧ updated.labels = localMsg.remoteXGMLabels) →
       updateMessage localMsg updated folder ts = some { localMsg with
         unread := updated.unread
         starred := updated.starred
         draft := updated.draft
         remoteUID := updated.uid
         remoteFolderId := folder.id
         folderId := folder.id
         syncedAt := ts
         remoteXGMLabels := updated.labels })
    ∧ localMsg.syncedAt ≤ (applyUpdateMessage localMsg updated folder ts).syncedAt := by
  refine ⟨?_, ?_, ?_, ?_⟩
  · intro h
    simp [updateMessage, h]
  · intro h
    obtain ⟨h1, h2, h3, h4, h5, h6⟩ := h
    by_cases hts : localMsg.syncedAt > ts
    · simp [updateMessage, hts]
    · simp [updateMessage, hts, h1, h2, h3, h4, h5, h6]
  · intro hle hne
    rw [updateMessage, if_neg (not_lt.mpr hle)]
    have hfalse : ((updated.unread == localMsg.unread) &&
        (updated.starred == localMsg.starred) &&
        (updated.draft == localMsg.draft) &&
        (updated.uid == localMsg.remoteUID) &&
        (folder.id == localMsg.remoteFolderId) &&
        (updated.labels == localMsg.remoteXGMLabels)) = false := by
      by_contra hb
      rw [Bool.not_eq_false] at hb
      simp only [Bool.and_eq_true, beq_iff_eq] at hb
      exact hne ⟨hb.1.1.1.1.1, hb.1.1.1.1.2, hb.1.1.1.2, hb.1.1.2, hb.1.2, hb.2⟩
    simp only [hfalse, Bool.false_eq_true, if_false]
  · unfold applyUpdateMessage updateMessage
    by_cases hts : localMsg.syncedAt > ts
    · simp [hts]
    · by_cases hnc : ((updated.unread == localMsg.unread) &&
          (updated.starred == localMsg.starred) &&
          (updated.draft == localMsg.draft) &&
          (updated.uid == localMsg.remoteUID) &&
          (folder.id == localMsg.remoteFolderId) &&
          (updated.labels == localMsg.remoteXGMLabels)) = true
      · simp [hts, hnc]
      · rw [Bool.not_eq_true] at hnc
        simp [hts, hnc]
        exact not_lt.mp hts

/-- Witness for claim C3: the skip branch fires when local data is newer,
and a genuine change is written with syncedAt advanced to the sync
timestamp. -/
theorem claim_C3_witness :
    updateMessage
        ⟨"m1", "a1", "s", "h", "t", 7, "f1", "f1", false, false, false, [], (10 : Int)⟩
        ⟨7, false, false, false, []⟩ ⟨"f1", "a1", "INBOX", "inbox"⟩ 5 = none
    ∧ updateMessage
        ⟨"m1", "a1", "s", "h", "t", 7, "f1", "f1", false, false, false, [], (3 : Int)⟩
        ⟨8, true, false, false, []⟩ ⟨"f2", "a1", "Spam", "spam"⟩ 5
      = some ⟨"m1", "a1", "s", "h", "t", 8, "f2", "f2", true, false, false, [], (5 : Int)⟩ := by
  constructor
  · exact (claim_C3_updateMessage_skip_rules_and_monotone _ _ _ _).1 (by decide)
  · exact (claim_C3_updateMessage_skip_rules_and_monotone _ _ _ _).2.2.1
      (by decide) (by decide)

/-- Claim C4: insertFallbackToUpdateMessage first attempts the insert keyed
by the deterministic message id; exactly on a constraint violation (SQLite
code 19) it fetches the existing local message by that id and runs
updateMessage on it, returning the local message; any other error, and a
constraint violation for which no local message is found by id, is
re-raised. -/
theorem claim_C4_insertFallback_suppresses_only_constraint_with_local
    (store : MessageStore) (remote : IMAPMessage) (folder : Folder) (ts : Int) :
    (containsId store remote.id = false →
      storeInsertFallbackToUpdateMessage store remote folder ts
        = .ok (store ++ [mkMessage remote folder ts], mkMessage remote folder ts))
    ∧ (∀ localMsg, store.find? (fun m => m.id == remote.id) = some localMsg →
        storeInsertFallbackToUpdateMessage store remote folder ts
          = .ok (storeReplace store remote.id
                 (applyUpdateMessage localMsg (MessageAttributesForMessage remote) folder ts),
               applyUpdateMessage localMsg (MessageAttributesForMessage remote) folder ts))
    ∧ (∀ (A : Type) (ex : SQLiteErr) (lookup : Option Message) (onUpdate : Message → A),
        ex.code ≠ 19 →
        insertFallbackCatch (.error ex) lookup onUpdate = .error ex)
    ∧ (∀ (A : Type) (ex : SQLiteErr) (onUpdate : Message → A),
        ex.code = 19 →
        insertFallbackCatch (.error ex) (none : Option Message) onUpdate = .error ex) := by
  refine ⟨?_, ?_, ?_, ?_⟩
  · intro hnew
    simp [storeInsertFallbackToUpdateMessage, storeInsertMessage, hnew,
      insertFallbackCatch, Except.map]
  · intro localMsg hfind
    have hmem := List.mem_of_find?_eq_some hfind
    have hbeq := List.find?_some hfind
    have hcontains : containsId store remote.id = true :=
      List.any_eq_true.mpr ⟨localMsg, hmem, hbeq⟩
    simp [storeInsertFallbackToUpdateMessage, storeInsertMessage, hcontains,
      insertFallbackCatch, Except.map, hfind]
  · intro A ex lookup onUpdate hne
    have : (ex.code != 19) = true := by
      simpa using hne
    simp [insertFallbackCatch, this]
  · intro A ex onUpdate he
    simp [insertFallbackCatch, he]

/-- Witness for claim C4: a fresh insert succeeds; a collision on an
existing row falls back to updateMessage and returns the local row; a
non-constraint error (code 5) propagates; a constraint error with no local
row propagates. -/
theorem claim_C4_witness :
    storeInsertFallbackToUpdateMessage []
        ⟨"m1", 4, 0, "hm", false, [], "s", true, false, false, []⟩
        ⟨"f1", "a1", "INBOX", "inbox"⟩ 5
      = .ok ([mkMessage ⟨"m1", 4, 0, "hm", false, [], "s", true, false, false, []⟩
               ⟨"f1", "a1", "INBOX", "inbox"⟩ 5],
             mkMessage ⟨"m1", 4, 0, "hm", false, [], "s", true, false, false, []⟩
               ⟨"f1", "a1", "INBOX", "inbox"⟩ 5)
    ∧ storeInsertFallbackToUpdateMessage
        [⟨"m1", "a1", "s", "hm", "t", 4, "f1", "f1", true, false, false, [], (3 : Int)⟩]
        ⟨"m1", 4, 0, "hm", false, [], "s", true, false, false, []⟩
        ⟨"f1", "a1", "INBOX", "inbox"⟩ 5
      = .ok ([⟨"m1", "a1", "s", "hm", "t", 4, "f1", "f1", true, false, false, [], (3 : Int)⟩],
             ⟨"m1", "a1", "s", "hm", "t", 4, "f1", "f1", true, false, false, [], (3 : Int)⟩)
    ∧ insertFallbackCatch (A := Nat) (.error ⟨5⟩) none (fun _ => 0) = .error ⟨5⟩
    ∧ insertFallbackCatch (A := Nat) (.error ⟨19⟩) none (fun _ => 0) = .error ⟨19⟩ := by
  refine ⟨?_, ?_, ?_, ?_⟩
  · exact (claim_C4_insertFallback_suppresses_only_constraint_with_local _ _ _ _).1 rfl
  · have h := (claim_C4_insertFallback_suppresses_only_constraint_with_local
      [⟨"m1", "a1", "s", "hm", "t", 4, "f1", "f1", true, false, false, [], (3 : Int)⟩]
      ⟨"m1", 4, 0, "hm", false, [], "s", true, false, false, []⟩
      ⟨"f1", "a1", "INBOX", "inbox"⟩ 5).2.1
      ⟨"m1", "a1", "s", "hm", "t", 4, "f1", "f1", true, false, false, [], (3 : Int)⟩ rfl
    simpa [storeReplace, applyUpdateMessage, updateMessage, MessageAttributesForMessage] using h
  · exact (claim_C4_insertFallback_suppresses_only_constraint_with_local []
      ⟨"m1", 4, 0, "hm", false, [], "s", true, false, false, []⟩
      ⟨"f1", "a1", "INBOX", "inbox"⟩ 0).2.2.1 Nat ⟨5⟩ none (fun _ => 0) (by decide)
  · exact (claim_C4_insertFallback_suppresses_only_constraint_with_local []
      ⟨"m1", 4, 0, "hm", false, [], "s", true, false, false, []⟩
      ⟨"f1", "a1", "INBOX", "inbox"⟩ 0).2.2.2 Nat ⟨19⟩ (fun _ => 0) rfl

/-- Claim C10: in unlinkMessagesMatchingQuery, a matched message already
carrying an unlink sentinel (remoteUID > UINT32_MAX - 5) is left completely
unchanged rather than restamped, so a message that stays missing keeps its
original phase marker and is removed by the delete pass whose phase matches
that marker; every other matched message has only its remoteUID changed (to
UINT32_MAX - phase) and each save passes emit = false; unmatched messages
are untouched. -/
theorem claim_C10_unlink_skips_marked_and_saves_without_delta
    (store : MessageStore) (q : Message → Bool) (phase : Nat) (m : Message) :
    (m ∈ store → q m = true → isUnlinkedUID m.remoteUID = true →
      m ∈ (unlinkMessagesMatchingQuery store q phase).1)
    ∧ (m ∈ store → q m = true → isUnlinkedUID m.remoteUID = false →
      { m with remoteUID := unlinkMarker phase } ∈ (unlinkMessagesMatchingQuery store q phase).1
      ∧ SaveOp.mk { m with remoteUID := unlinkMarker phase } false
          ∈ (unlinkMessagesMatchingQuery store q phase).2)
    ∧ (m ∈ store → q m = false → m ∈ (unlinkMessagesMatchingQuery store q phase).1)
    ∧ (∀ op ∈ (unlinkMessagesMatchingQuery store q phase).2,
        op.emit = false ∧ op.message.remoteUID = unlinkMarker phase)
    ∧ (∀ aid q0,
        (store.map Message.id).Nodup → m ∈ store → q m = true →
        m.accountId = aid → m.remoteUID = unlinkMarker q0 → isUnlinkedUID m.remoteUID = true →
        containsId (deleteMessagesStillUnlinkedFromPhase aid q0
          (unlinkMessagesMatchingQuery store q phase).1) m.id = false) := by
  refine ⟨?_, ?_, ?_, ?_, ?_⟩
  · intro hm hq hu
    have : (if q m then unlinkOne phase m else m) = m := by
      rw [if_pos hq]
      unfold unlinkOne
      rw [if_pos hu]
    exact List.mem_map.mpr ⟨m, hm, this⟩
  · intro hm hq hu
    constructor
    · have : (if q m then unlinkOne phase m else m)
          = { m with remoteUID := unlinkMarker phase } := by
        rw [if_pos hq]
        unfold unlinkOne
        rw [if_neg (by simp [hu])]
      exact List.mem_map.mpr ⟨m, hm, this⟩
    · apply List.mem_filterMap.mpr
      refine ⟨m, List.mem_filter.mpr ⟨hm, hq⟩, ?_⟩
      rw [if_neg (by simp [hu])]
  · intro hm hq
    have : (if q m then unlinkOne phase m else m) = m := by
      rw [if_neg (by simp [hq])]
    exact List.mem_map.mpr ⟨m, hm, this⟩
  · intro op hop
    obtain ⟨x, _, hx⟩ := List.mem_filterMap.mp hop
    by_cases hu : isUnlinkedUID x.remoteUID = true
    · rw [if_pos hu] at hx
      cases hx
    · rw [if_neg hu] at hx
      cases hx
      exact ⟨rfl, rfl⟩
  · intro aid q0 hnd hm hq hacct hmark hu
    have hkeep : (if q m then unlinkOne phase m else m) = m := by
      rw [if_pos hq]
      unfold unlinkOne
      rw [if_pos hu]
    have hmem : m ∈ (unlinkMessagesMatchingQuery store q phase).1 :=
      List.mem_map.mpr ⟨m, hm, hkeep⟩
    have hnd' : ((unlinkMessagesMatchingQuery store q phase).1.map Message.id).Nodup := by
      rw [unlink_fst_map_id]
      exact hnd
    rw [deleteMessagesStillUnlinkedFromPhase_eq_filter aid q0 _ hnd']
    rw [containsId]
    rw [Bool.eq_false_iff]
    intro hc
    obtain ⟨x, hxmem, hxbeq⟩ := List.any_eq_true.mp hc
    have hxid : x.id = m.id := by simpa using hxbeq
    have hxin : x ∈ (unlinkMessagesMatchingQuery store q phase).1 :=
      List.mem_of_mem_filter hxmem
    have hxeq : x = m := eq_of_mem_of_id_eq hnd' hxin hmem hxid
    have hxpred := (List.mem_filter.mp hxmem).2
    rw [hxeq] at hxpred
    simp [deleteUnlinkedPred, hacct, hmark] at hxpred

/-- Witness for claim C10: with phase 2, a message already carrying the
phase-1 marker is untouched and then removed by the phase-1 delete pass,
while a live message is restamped with the phase-2 marker and saved with no
delta. -/
theorem claim_C10_witness :
    (⟨"m1", "a1", "s", "h", "t", 4294967294, "f1", "f1", false, false, false, [], (3 : Int)⟩ : Message)
      ∈ (unlinkMessagesMatchingQuery
          [⟨"m1", "a1", "s", "h", "t", 4294967294, "f1", "f1", false, false, false, [], (3 : Int)⟩,
           ⟨"m2", "a1", "s", "h", "t", 9, "f1", "f1", false, false, false, [], (3 : Int)⟩]
          (fun mm => mm.folderId == "f1") 2).1
    ∧ SaveOp.mk ⟨"m2", "a1", "s", "h", "t", 4294967293, "f1", "f1", false, false, false, [], (3 : Int)⟩ false
      ∈ (unlinkMessagesMatchingQuery
          [⟨"m1", "a1", "s", "h", "t", 4294967294, "f1", "f1", false, false, false, [], (3 : Int)⟩,
           ⟨"m2", "a1", "s", "h", "t", 9, "f1", "f1", false, false, false, [], (3 : Int)⟩]
          (fun mm => mm.folderId == "f1") 2).2
    ∧ containsId (deleteMessagesStillUnlinkedFromPhase "a1" 1
        (unlinkMessagesMatchingQuery
          [⟨"m1", "a1", "s", "h", "t", 4294967294, "f1", "f1", false, false, false, [], (3 : Int)⟩,
           ⟨"m2", "a1", "s", "h", "t", 9, "f1", "f1", false, false, false, [], (3 : Int)⟩]
          (fun mm => mm.folderId == "f1") 2).1) "m1" = false := by
  refine ⟨?_, ?_, ?_⟩
  · exact (claim_C10_unlink_skips_marked_and_saves_without_delta _ _ 2 _).1
      (by simp) (by decide) (by decide)
  · have h := (claim_C10_unlink_skips_marked_and_saves_without_delta
      [⟨"m1", "a1", "s", "h", "t", 4294967294, "f1", "f1", false, false, false, [], (3 : Int)⟩,
       ⟨"m2", "a1", "s", "h", "t", 9, "f1", "f1", false, false, false, [], (3 : Int)⟩]
      (fun mm => mm.folderId == "f1") 2
      ⟨"m2", "a1", "s", "h", "t", 9, "f1", "f1", false, false, false, [], (3 : Int)⟩).2.1
      (by simp) (by decide) (by decide)
    exact h.2
  · have h := (claim_C10_unlink_skips_marked_and_saves_without_delta
      [⟨"m1", "a1", "s", "h", "t", 4294967294, "f1", "f1", false, false, false, [], (3 : Int)⟩,
       ⟨"m2", "a1", "s", "h", "t", 9, "f1", "f1", false, false, false, [], (3 : Int)⟩]
      (fun mm => mm.folderId == "f1") 2
      ⟨"m1", "a1", "s", "h", "t", 4294967294, "f1", "f1", false, false, false, [], (3 : Int)⟩).2.2.2.2
      "a1" 1 (by decide) (by simp) (by decide) rfl (by decide) (by decide)
    exact h

/-- The guarded subtraction computing the next chunk head equals
max(head - chunk, 1). -/
theorem chunk_head_eq_max (h c : Nat) : (if h > c then h - c else 1) = max (h - c) 1 := by
  by_cases hc : h > c
  · rw [if_pos hc, Nat.max_eq_left]
    omega
  · rw [if_neg hc, Nat.max_eq_right]
    omega

/-- The Bool trigger test agrees with its propositional reading. -/
theorem fullScanTriggered_iff (ls : FolderLocalStatus) (qres : Bool) (now : Int) :
    fullScanTriggered ls qres now = true ↔
      (ls.fullScanHead.getD UINT32_MAX = UINT32_MAX ∨
        (qres = false ∧ now - ls.fullScanTime.getD 0 > TEN_MINUTES)) := by
  simp [fullScanTriggered]

/-- Claim C6: syncFolderFullScanIncremental starts a new scan when
fullScanHead is unset or, on non-QRESYNC servers, when more than ten
minutes have passed since the last scan; a fresh scan starts at
remoteStatus.uidNext with chunk size 200 while an in-progress scan uses
chunk size 1000; each step scans [max(head - chunk, 1), head), collapsing
to [1, head) when the folder's message count is below the chunk size; it
returns false exactly when the effective fullScanHead is 1, and otherwise
stores the new head and scan time and returns true. -/
theorem claim_C6_full_scan_incremental_step
    (ls : FolderLocalStatus) (remote : IMAPFolderStatus) (qres : Bool) (now : Int) :
    ((ls.fullScanHead = none ∨ (qres = false ∧ now - ls.fullScanTime.getD 0 > TEN_MINUTES)) →
      syncFolderFullScanIncremental ls remote qres now =
        if remote.uidNext = 1 then
          { scannedRange := none
            status := { ls with uidnext := some remote.uidNext }
            moreWork := false }
        else
          { scannedRange := some ((if remote.messageCount < 200 then 1
                else max (remote.uidNext - 200) 1),
              remote.uidNext - (if remote.messageCount < 200 then 1
                else max (remote.uidNext - 200) 1))
            status := { ls with
              uidnext := some remote.uidNext,
              fullScanHead := some (if remote.messageCount < 200 then 1
                else max (remote.uidNext - 200) 1),
              fullScanTime := some now }
            moreWork := true })
    ∧ (∀ h, ls.fullScanHead = some h → h ≠ UINT32_MAX →
        (qres = true ∨ ¬(now - ls.fullScanTime.getD 0 > TEN_MINUTES)) →
        syncFolderFullScanIncremental ls remote qres now =
          if h = 1 then
            { scannedRange := none, status := ls, moreWork := false }
          else
            { scannedRange := some ((if remote.messageCount < 1000 then 1
                  else max (h - 1000) 1),
                h - (if remote.messageCount < 1000 then 1 else max (h - 1000) 1))
              status := { ls with
                fullScanHead := some (if remote.messageCount < 1000 then 1
                  else max (h - 1000) 1)
                fullScanTime := some now }
              moreWork := true })
    ∧ ((syncFolderFullScanIncremental ls remote qres now).moreWork = false ↔
        (if ls.fullScanHead.getD UINT32_MAX = UINT32_MAX ∨
            (qres = false ∧ now - ls.fullScanTime.getD 0 > TEN_MINUTES)
          then remote.uidNext else ls.fullScanHead.getD UINT32_MAX) = 1) := by
  refine ⟨?_, ?_, ?_⟩
  · intro htrig
    have hfresh : fullScanTriggered ls qres now = true := by
      apply (fullScanTriggered_iff ls qres now).mpr
      rcases htrig with hnone | h
      · exact Or.inl (by simp [hnone])
      · exact Or.inr h
    simp only [syncFolderFullScanIncremental]
    rw [hfresh]
    by_cases hn1 : remote.uidNext = 1
    · simp [hn1]
    · simp [hn1, ← chunk_head_eq_max]
  · intro h hsome hne htrig
    have hfresh : fullScanTriggered ls qres now = false := by
      apply Bool.eq_false_iff.mpr
      intro hcontra
      rcases (fullScanTriggered_iff ls qres now).mp hcontra with hl | ⟨hq, ht⟩
      · rw [hsome] at hl
        exact hne (by simpa using hl)
      · rcases htrig with hq1 | ht1
        · rw [hq1] at hq
          cases hq
        · exact ht1 ht
    simp only [syncFolderFullScanIncremental]
    rw [hfresh]
    by_cases hn1 : h = 1
    · simp [hsome, hn1]
    · simp [hsome, hn1, ← chunk_head_eq_max]
  · by_cases hfresh : fullScanTriggered ls qres now = true
    · rw [if_pos ((fullScanTriggered_iff ls qres now).mp hfresh)]
      simp only [syncFolderFullScanIncremental]
      rw [hfresh]
      by_cases hn1 : remote.uidNext = 1
      · simp [hn1]
      · simp [hn1]
    · have hfresh' : fullScanTriggered ls qres now = false := Bool.eq_false_iff.mpr hfresh
      rw [if_neg (fun hcontra => hfresh ((fullScanTriggered_iff ls qres now).mpr hcontra))]
      simp only [syncFolderFullScanIncremental]
      rw [hfresh']
      by_cases hn1 : ls.fullScanHead.getD UINT32_MAX = 1
      · simp [hn1]
      · simp [hn1]

/-- Witness for claim C6: a fresh scan of a small folder collapses to
[1, uidNext) with chunk 200, and an in-progress scan steps down by 1000 and
stores the new head and scan time. -/
theorem claim_C6_witness :
    syncFolderFullScanIncremental ⟨none, none, none, none, none⟩ ⟨1, 500, 120, 9⟩ false 1000
      = ⟨some (1, 499), ⟨none, some 500, none, some 1, some 1000⟩, true⟩
    ∧ syncFolderFullScanIncremental ⟨none, none, none, some 5000, some 900⟩
        ⟨1, 8000, 3000, 9⟩ true 1000
      = ⟨some (4000, 1000), ⟨none, none, none, some 4000, some 1000⟩, true⟩ := by
  constructor
  · have h := (claim_C6_full_scan_incremental_step ⟨none, none, none, none, none⟩
      ⟨1, 500, 120, 9⟩ false 1000).1 (Or.inl rfl)
    rw [h]
    decide
  · have h := (claim_C6_full_scan_incremental_step ⟨none, none, none, some 5000, some 900⟩
      ⟨1, 8000, 3000, 9⟩ true 1000).2.1 5000 rfl (by decide) (Or.inl rfl)
    rw [h]
    decide

/-- Claim C9 (code bug): with a working IMAP connection and folder list,
a mailbox with no folder of role all or inbox, and an SMTP server that
connects and authenticates, runTestAuth emits error null and exits 0: the
err = ErrorInvalidAccount verdict of the folder-role loop is overwritten by
smtp.connect(&err) before any check reads it.  The claimed behavior
(runTestAuthClaimed, from the spec) would emit a non-null error and exit 1
on the same input. -/
theorem claim_C9_missing_inbox_error_is_lost :
    (["sent"].any (fun role => role == "all" || role == "inbox")) = false
    ∧ runTestAuth ⟨.noError, .noError, ["sent"], .noError, .noError⟩
        = ⟨0, none, "smtp"⟩
    ∧ runTestAuthClaimed ⟨.noError, .noError, ["sent"], .noError, .noError⟩
        = ⟨1, some .invalidAccount, "imap"⟩ := by
  refine ⟨rfl, rfl, rfl⟩

/-- Counterexample to claim C8: while inserting File rows during
retrievedMessageBody, the catch block swallows a SQLite error of code 7
(not a constraint violation) instead of propagating it: the loop completes
normally where the claimed behavior would re-raise the error. -/
theorem claim_C8_counterexample_nonconstraint_error_swallowed :
    retrievedMessageBodySaveFiles [] [("file1", some ⟨7⟩)] = []
    ∧ retrievedMessageBodySaveFilesClaimed [] [("file1", some ⟨7⟩)] = .error ⟨7⟩ := by
  refine ⟨rfl, rfl⟩

/-- Claim C8 as amended: the Message-insert fallback suppresses exactly a
code-19 constraint violation for which a local row exists by id (other
codes, and code 19 with no local row, propagate); but the File-row insert
loop of retrievedMessageBody suppresses every SQLite error regardless of
its code, completing with exactly the rows whose save succeeded. -/
theorem claim_C8_amended_suppression_sites
    (fileRows : List String) (attempts : List (String × Option SQLiteErr)) :
    (∀ (A : Type) (ex : SQLiteErr) (lookup : Option Message) (onUpdate : Message → A),
        ex.code ≠ 19 → insertFallbackCatch (.error ex) lookup onUpdate = .error ex)
    ∧ (∀ (A : Type) (ex : SQLiteErr) (onUpdate : Message → A),
        insertFallbackCatch (.error ex) (none : Option Message) onUpdate = .error ex)
    ∧ retrievedMessageBodySaveFiles fileRows attempts
        = fileRows ++ (attempts.filter (fun item => item.2 == none)).map (fun item => item.1) := by
  refine ⟨?_, ?_, ?_⟩
  · intro A ex lookup onUpdate hne
    have : (ex.code != 19) = true := by simpa using hne
    simp [insertFallbackCatch, this]
  · intro A ex onUpdate
    by_cases he : (ex.code != 19) = true
    · simp [insertFallbackCatch, he]
    · simp [insertFallbackCatch, he]
  · induction attempts generalizing fileRows with
    | nil => simp [retrievedMessageBodySaveFiles]
    | cons item rest ih =>
      obtain ⟨f, errOpt⟩ := item
      cases errOpt with
      | none =>
        simp only [retrievedMessageBodySaveFiles, List.foldl_cons] at ih ⊢
        rw [ih (fileRows ++ [f])]
        simp
      | some e =>
        simp only [retrievedMessageBodySaveFiles, List.foldl_cons] at ih ⊢
        rw [ih fileRows]
        simp

/-- Witness for the amended claim C8: a code-5 error on message insert
propagates, a code-19 error with no local row propagates, and the file loop
keeps the successful save and discards the code-7 failure. -/
theorem claim_C8_amended_witness :
    insertFallbackCatch (A := Nat) (.error ⟨5⟩) (some ⟨"m1", "a1", "s", "h", "t", 4, "f1",
        "f1", false, false, false, [], (3 : Int)⟩) (fun _ => 7) = .error ⟨5⟩
    ∧ insertFallbackCatch (A := Nat) (.error ⟨19⟩) none (fun _ => 7) = .error ⟨19⟩
    ∧ retrievedMessageBodySaveFiles ["a"] [("f", none), ("g", some ⟨7⟩)] = ["a", "f"] := by
  refine ⟨?_, ?_, ?_⟩
  · exact (claim_C8_amended_suppression_sites [] []).1 Nat ⟨5⟩ _ _ (by decide)
  · exact (claim_C8_amended_suppression_sites [] []).2.1 Nat ⟨19⟩ _
  · have h := (claim_C8_amended_suppression_sites ["a"] [("f", none), ("g", some ⟨7⟩)]).2.2
    rw [h]
    rfl

/-- Counterexample to claim C2: MailProcessor::appendToThreadSearchContent
(hence retrievedMessageBody, which calls it) is not a no-op on a second run
with the same input: each run appends the body text to the thread's
ThreadSearch row again, so the store changes on the second pass. -/
theorem claim_C2_counterexample_append_runs_twice :
    (appendToThreadSearchContent
        (appendToThreadSearchContent [(1, ⟨"", "", "b", "", "t1"⟩)] 2
          ⟨"t1", "a1", "subj", 0, some 1, ""⟩ none (some "x")).1 2
        ⟨"t1", "a1", "subj", 0, some 1, ""⟩ none (some "x")).1
      ≠ (appendToThreadSearchContent [(1, ⟨"", "", "b", "", "t1"⟩)] 2
          ⟨"t1", "a1", "subj", 0, some 1, ""⟩ none (some "x")).1 := by
  decide

/-- Claim C2 as amended: the message-reconciliation methods are no-ops on a
second pass with the same input — updateMessage writes nothing the second
time, insertFallbackToUpdateMessage after a successful insert collides and
degenerates to a skipped update leaving the store unchanged, a repeated
unlink pass stamps nothing and issues no saves, and the phase delete pass
is idempotent — so a second sync cycle over an unchanged remote performs no
message writes; but appendToThreadSearchContent (hence retrievedMessageBody)
is excluded: it re-appends the body text to the thread search row on every
run. -/
theorem claim_C2_amended_reconciliation_methods_idempotent :
    (∀ (localMsg : Message) (updated : MessageAttributes) (folder : Folder) (ts : Int),
      updateMessage (applyUpdateMessage localMsg updated folder ts) updated folder ts = none)
    ∧ (∀ (store : MessageStore) (remote : IMAPMessage) (folder : Folder) (ts : Int),
        containsId store remote.id = false →
        storeInsertFallbackToUpdateMessage (store ++ [mkMessage remote folder ts])
            remote folder ts
          = .ok (store ++ [mkMessage remote folder ts], mkMessage remote folder ts))
    ∧ (∀ (store : MessageStore) (q : Message → Bool) (phase : Nat),
        (phase = 1 ∨ phase = 2) →
        unlinkMessagesMatchingQuery (unlinkMessagesMatchingQuery store q phase).1 q phase
          = ((unlinkMessagesMatchingQuery store q phase).1, []))
    ∧ (∀ (aid : String) (phase : Nat) (store : MessageStore),
        (store.map Message.id).Nodup →
        deleteMessagesStillUnlinkedFromPhase aid phase
            (deleteMessagesStillUnlinkedFromPhase aid phase store)
          = deleteMessagesStillUnlinkedFromPhase aid phase store) := by
  refine ⟨?_, ?_, ?_, ?_⟩
  · intro localMsg updated folder ts
    by_cases hts : localMsg.syncedAt > ts
    · simp [applyUpdateMessage, updateMessage, hts]
    · by_cases hnc : ((updated.unread == localMsg.unread) &&
          (updated.starred == localMsg.starred) &&
          (updated.draft == localMsg.draft) &&
          (updated.uid == localMsg.remoteUID) &&
          (folder.id == localMsg.remoteFolderId) &&
          (updated.labels == localMsg.remoteXGMLabels)) = true
      · simp [applyUpdateMessage, updateMessage, hts, hnc]
      · rw [Bool.not_eq_true] at hnc
        simp [applyUpdateMessage, updateMessage, hts, hnc]
  · intro store remote folder ts hnew
    have hcontains : containsId (store ++ [mkMessage remote folder ts]) remote.id = true := by
      apply List.any_eq_true.mpr
      exact ⟨mkMessage remote folder ts, by simp, by simp [mkMessage]⟩
    have hfindstore : store.find? (fun m => m.id == remote.id) = none := by
      apply List.find?_eq_none.mpr
      intro x hx hbeq
      have hc : containsId store remote.id = true := List.any_eq_true.mpr ⟨x, hx, hbeq⟩
      rw [hnew] at hc
      cases hc
    have hfind : (store ++ [mkMessage remote folder ts]).find? (fun m => m.id == remote.id)
        = some (mkMessage remote folder ts) := by
      simp [List.find?_append, hfindstore, mkMessage]
    have happly : applyUpdateMessage (mkMessage remote folder ts)
        (MessageAttributesForMessage remote) folder ts = mkMessage remote folder ts := by
      simp [applyUpdateMessage, updateMessage, mkMessage, MessageAttributesForMessage]
    have hreplace : storeReplace (store ++ [mkMessage remote folder ts]) remote.id
        (mkMessage remote folder ts) = store ++ [mkMessage remote folder ts] := by
      unfold storeReplace
      rw [List.map_append]
      have hl : store.map (fun m => if m.id == remote.id
          then mkMessage remote folder ts else m) = store := by
        have hpt : ∀ m ∈ store, (if m.id == remote.id
            then mkMessage remote folder ts else m) = m := by
          intro m hm
          rw [if_neg]
          intro hbeq
          have hc : containsId store remote.id = true := List.any_eq_true.mpr ⟨m, hm, hbeq⟩
          rw [hnew] at hc
          cases hc
        rw [List.map_congr_left hpt]
        exact List.map_id' store
      rw [hl]
      simp [mkMessage]
    simp [storeInsertFallbackToUpdateMessage, storeInsertMessage, hcontains,
      insertFallbackCatch, Except.map, hfind, happly, hreplace]
  · intro store q phase hphase
    have hmarked : ∀ m' ∈ (unlinkMessagesMatchingQuery store q phase).1,
        q m' = true → isUnlinkedUID m'.remoteUID = true := by
      intro m' hm' hq'
      obtain ⟨m, hm, hfm⟩ := List.mem_map.mp hm'
      by_cases hqm : q m = true
      · rw [if_pos hqm] at hfm
        unfold unlinkOne at hfm
        by_cases hu : isUnlinkedUID m.remoteUID = true
        · rw [if_pos hu] at hfm
          rw [← hfm]
          exact hu
        · rw [if_neg hu] at hfm
          rw [← hfm]
          rcases hphase with h1 | h2
          · subst h1
            exact (by decide : isUnlinkedUID (unlinkMarker 1) = true)
          · subst h2
            exact (by decide : isUnlinkedUID (unlinkMarker 2) = true)
      · rw [if_neg hqm] at hfm
        rw [← hfm] at hq'
        exact absurd hq' (by simp [hqm])
    have hfst : (unlinkMessagesMatchingQuery
        (unlinkMessagesMatchingQuery store q phase).1 q phase).1
        = (unlinkMessagesMatchingQuery store q phase).1 := by
      have hpt : ∀ m' ∈ (unlinkMessagesMatchingQuery store q phase).1,
          (if q m' then unlinkOne phase m' else m') = m' := by
        intro m' hm'
        by_cases hq' : q m' = true
        · rw [if_pos hq']
          unfold unlinkOne
          rw [if_pos (hmarked m' hm' hq')]
        · rw [if_neg (by simp [hq'])]
      calc (unlinkMessagesMatchingQuery store q phase).1.map
            (fun m' => if q m' then unlinkOne phase m' else m')
          = (unlinkMessagesMatchingQuery store q phase).1.map (fun m' => m') :=
            List.map_congr_left hpt
        _ = (unlinkMessagesMatchingQuery store q phase).1 :=
            List.map_id' _
    have hsnd : (unlinkMessagesMatchingQuery
        (unlinkMessagesMatchingQuery store q phase).1 q phase).2 = [] := by
      apply List.filterMap_eq_nil_iff.mpr
      intro x hx
      have hxA : x ∈ (unlinkMessagesMatchingQuery store q phase).1 :=
        List.mem_of_mem_filter hx
      have hqx : q x = true := (List.mem_filter.mp hx).2
      rw [if_pos (hmarked x hxA hqx)]
    exact Prod.ext hfst hsnd
  · intro aid phase store hnd
    have hnd' : ((store.filter (fun m => !(deleteUnlinkedPred aid phase m))).map
        Message.id).Nodup :=
      List.Nodup.sublist (List.Sublist.map Message.id (List.filter_sublist store)) hnd
    rw [deleteMessagesStillUnlinkedFromPhase_eq_filter aid phase store hnd,
      deleteMessagesStillUnlinkedFromPhase_eq_filter aid phase _ hnd',
      List.filter_filter]
    apply List.filter_congr
    intro m _
    exact Bool.and_self _

/-- Witness for the amended claim C2 at concrete inputs: a second
updateMessage run writes nothing; a second insert of the same remote
message leaves the store as it was; a second unlink pass stamps nothing and
saves nothing; a second delete pass changes nothing. -/
theorem claim_C2_amended_witness :
    updateMessage (applyUpdateMessage
        ⟨"m1", "a1", "s", "h", "t", 7, "f1", "f1", false, false, false, [], (3 : Int)⟩
        ⟨8, true, false, false, []⟩ ⟨"f2", "a1", "Sp", "spam"⟩ 5)
      ⟨8, true, false, false, []⟩ ⟨"f2", "a1", "Sp", "spam"⟩ 5 = none
    ∧ storeInsertFallbackToUpdateMessage
        ([] ++ [mkMessage ⟨"m1", 4, 0, "hm", false, [], "s", true, false, false, []⟩
          ⟨"f1", "a1", "INBOX", "inbox"⟩ 5])
        ⟨"m1", 4, 0, "hm", false, [], "s", true, false, false, []⟩
        ⟨"f1", "a1", "INBOX", "inbox"⟩ 5
      = .ok ([] ++ [mkMessage ⟨"m1", 4, 0, "hm", false, [], "s", true, false, false, []⟩
            ⟨"f1", "a1", "INBOX", "inbox"⟩ 5],
          mkMessage ⟨"m1", 4, 0, "hm", false, [], "s", true, false, false, []⟩
            ⟨"f1", "a1", "INBOX", "inbox"⟩ 5)
    ∧ unlinkMessagesMatchingQuery
        (unlinkMessagesMatchingQuery
          [⟨"m2", "a1", "s", "h", "t", 9, "f1", "f1", false, false, false, [], (3 : Int)⟩]
          (fun mm => mm.folderId == "f1") 2).1
        (fun mm => mm.folderId == "f1") 2
      = ((unlinkMessagesMatchingQuery
          [⟨"m2", "a1", "s", "h", "t", 9, "f1", "f1", false, false, false, [], (3 : Int)⟩]
          (fun mm => mm.folderId == "f1") 2).1, [])
    ∧ deleteMessagesStillUnlinkedFromPhase "a1" 1
        (deleteMessagesStillUnlinkedFromPhase "a1" 1
          [⟨"m3", "a1", "s", "h", "t", 4294967294, "f1", "f1", false, false, false, [], (3 : Int)⟩])
      = deleteMessagesStillUnlinkedFromPhase "a1" 1
          [⟨"m3", "a1", "s", "h", "t", 4294967294, "f1", "f1", false, false, false, [], (3 : Int)⟩] := by
  refine ⟨?_, ?_, ?_, ?_⟩
  · exact claim_C2_amended_reconciliation_methods_idempotent.1 _ _ _ _
  · exact claim_C2_amended_reconciliation_methods_idempotent.2.1 [] _ _ 5 rfl
  · exact claim_C2_amended_reconciliation_methods_idempotent.2.2.1 _ _ 2 (Or.inr rfl)
  · exact claim_C2_amended_reconciliation_methods_idempotent.2.2.2 "a1" 1 _ (by decide)

/-- Rows already in the ThreadReference table survive the upsert fold. -/
theorem foldl_insertOrIgnore_mono (tid aid : String) (ids : List String) :
    ∀ (table : List ThreadReference) (r : ThreadReference), r ∈ table →
      r ∈ ids.foldl (insertOrIgnoreThreadReference tid aid) table := by
  induction ids with
  | nil =>
    intro table r hr
    simpa using hr
  | cons y ys ih =>
    intro table r hr
    simp only [List.foldl_cons]
    apply ih
    unfold insertOrIgnoreThreadReference
    by_cases hany : (table.any (fun row =>
        row.accountId == aid && row.headerMessageId == y)) = true
    · rw [if_pos hany]
      exact hr
    · rw [if_neg hany]
      exact List.mem_append_left _ hr

/-- After the upsert fold, every processed headerMessageId is mapped by
some row of the account. -/
theorem foldl_insertOrIgnore_covers (tid aid : String) (ids : List String) :
    ∀ (table : List ThreadReference) (x : String), x ∈ ids →
      ∃ r ∈ ids.foldl (insertOrIgnoreThreadReference tid aid) table,
        r.accountId = aid ∧ r.headerMessageId = x := by
  induction ids with
  | nil =>
    intro table x hx
    cases hx
  | cons y ys ih =>
    intro table x hx
    simp only [List.foldl_cons]
    rcases List.mem_cons.mp hx with rfl | hxs
    · by_cases hany : (table.any (fun row =>
          row.accountId == aid && row.headerMessageId == x)) = true
      · obtain ⟨r, hr, hprops⟩ := List.any_eq_true.mp hany
        rw [Bool.and_eq_true] at hprops
        refine ⟨r, ?_, by simpa using hprops.1, by simpa using hprops.2⟩
        apply foldl_insertOrIgnore_mono
        unfold insertOrIgnoreThreadReference
        rw [if_pos hany]
        exact hr
      · refine ⟨⟨tid, aid, x⟩, ?_, rfl, rfl⟩
        apply foldl_insertOrIgnore_mono
        unfold insertOrIgnoreThreadReference
        rw [if_neg hany]
        exact List.mem_append_right _ (by simp)
    · exact ih _ x hxs

/-- The upsert fold adds rows only for the processed ids, all bound to the
given thread and account. -/
theorem foldl_insertOrIgnore_new_rows (tid aid : String) (ids : List String) :
    ∀ (table : List ThreadReference) (r : ThreadReference),
      r ∈ ids.foldl (insertOrIgnoreThreadReference tid aid) table →
      r ∈ table ∨ (r.threadId = tid ∧ r.accountId = aid ∧ r.headerMessageId ∈ ids) := by
  induction ids with
  | nil =>
    intro table r hr
    exact Or.inl (by simpa using hr)
  | cons y ys ih =>
    intro table r hr
    simp only [List.foldl_cons] at hr
    rcases ih _ r hr with hstep | hnew
    · unfold insertOrIgnoreThreadReference at hstep
      by_cases hany : (table.any (fun row =>
          row.accountId == aid && row.headerMessageId == y)) = true
      · rw [if_pos hany] at hstep
        exact Or.inl hstep
      · rw [if_neg hany] at hstep
        rcases List.mem_append.mp hstep with h1 | h2
        · exact Or.inl h1
        · have hre : r = ⟨tid, aid, y⟩ := by simpa using h2
          subst hre
          exact Or.inr ⟨rfl, rfl, by simp⟩
    · exact Or.inr ⟨hnew.1, hnew.2.1, List.mem_cons_of_mem _ hnew.2.2⟩

/-- Claim C5: thread reconciliation on insert matches on the Gmail thread
id when the server provides one; otherwise, for a non-auto-generated
Message-Id, it looks the thread up through ThreadReference using the
message's own Message-Id plus at most the first 50 references (references
beyond 50 cannot change the outcome, and any hit comes from a table row of
the account whose headerMessageId is among the candidates); with no match a
new thread is created with the subject copied from the message.  After the
save, ThreadReference rows are upserted for the message's Message-Id plus
at most the first 100 references. -/
theorem claim_C5_thread_reconciliation_and_reference_upsert
    (threads : List Thread) (trefs : List ThreadReference) (aid : String)
    (remote : IMAPMessage) (table : List ThreadReference)
    (tid hmid : String) (references : List String) :
    (∀ t, remote.gmailThreadID ≠ 0 →
      findThreadByGThrId threads remote.gmailThreadID = some t →
      insertMessageChooseThread threads trefs aid remote = t)
    ∧ insertMessageChooseThread threads trefs aid remote
        = insertMessageChooseThread threads trefs aid
            { remote with references := remote.references.take 50 }
    ∧ (∀ (ids : List String) (t : Thread),
        findThreadByReferences trefs threads aid ids = some t →
        ∃ r ∈ trefs, r.accountId = aid ∧ r.headerMessageId ∈ ids ∧
          t ∈ threads ∧ t.id = r.threadId)
    ∧ (remote.gmailThreadID = 0 → remote.isMessageIDAutoGenerated = false →
        findThreadByReferences trefs threads aid
          (remote.headerMessageId :: remote.references.take 50) = none →
        insertMessageChooseThread threads trefs aid remote
          = newThreadForMessage remote.id aid remote.subject remote.gmailThreadID)
    ∧ (remote.gmailThreadID = 0 → remote.isMessageIDAutoGenerated = true →
        insertMessageChooseThread threads trefs aid remote
          = newThreadForMessage remote.id aid remote.subject remote.gmailThreadID)
    ∧ (∀ x, x ∈ hmid :: references.take 100 →
        ∃ r ∈ upsertThreadReferences table tid aid hmid references,
          r.accountId = aid ∧ r.headerMessageId = x)
    ∧ (∀ r, r ∈ upsertThreadReferences table tid aid hmid references →
        r ∈ table ∨ (r.threadId = tid ∧ r.accountId = aid ∧
          r.headerMessageId ∈ hmid :: references.take 100))
    ∧ upsertThreadReferences table tid aid hmid references
        = upsertThreadReferences table tid aid hmid (references.take 100) := by
  refine ⟨?_, ?_, ?_, ?_, ?_, ?_, ?_, ?_⟩
  · intro t hg hfind
    have hbne : (remote.gmailThreadID != 0) = true := by simpa using hg
    simp [insertMessageChooseThread, hbne, hfind]
  · by_cases hb : (remote.gmailThreadID != 0) = true
    · simp [insertMessageChooseThread, hb]
    · by_cases ha : remote.isMessageIDAutoGenerated = true
      · simp [insertMessageChooseThread, hb, ha]
      · rw [Bool.not_eq_true] at ha
        simp [insertMessageChooseThread, hb, ha, List.take_take]
  · intro ids t hsome
    unfold findThreadByReferences at hsome
    cases hfr : trefs.find? (fun r =>
        r.accountId == aid && ids.contains r.headerMessageId) with
    | none =>
      rw [hfr] at hsome
      cases hsome
    | some r =>
      rw [hfr] at hsome
      have hrmem := List.mem_of_find?_eq_some hfr
      have hrprop := List.find?_some hfr
      rw [Bool.and_eq_true] at hrprop
      have htmem := List.mem_of_find?_eq_some hsome
      have htprop := List.find?_some hsome
      exact ⟨r, hrmem, by simpa using hrprop.1, List.elem_iff.mp hrprop.2,
        htmem, by simpa using htprop⟩
  · intro hg ha hnone
    have hbne : (remote.gmailThreadID != 0) = false := by simp [hg]
    simp [insertMessageChooseThread, hbne, ha, hnone]
  · intro hg ha
    have hbne : (remote.gmailThreadID != 0) = false := by simp [hg]
    simp [insertMessageChooseThread, hbne, ha]
  · intro x hx
    exact foldl_insertOrIgnore_covers tid aid (hmid :: references.take 100) table x hx
  · intro r hr
    exact foldl_insertOrIgnore_new_rows tid aid (hmid :: references.take 100) table r hr
  · simp [upsertThreadReferences, List.take_take]

/-- Witness for claim C5: a Gmail-threaded message matches the thread with
its gThrId; a message with no Gmail thread id, a real Message-Id and no
matching reference row gets a fresh thread with its own subject; and the
upsert maps both the message id and a reference. -/
theorem claim_C5_witness :
    insertMessageChooseThread [⟨"t1", "a1", "old", 77, none, ""⟩] [] "a1"
        ⟨"m1", 4, 77, "hm", false, ["r1"], "subj", true, false, false, []⟩
      = ⟨"t1", "a1", "old", 77, none, ""⟩
    ∧ insertMessageChooseThread [⟨"t1", "a1", "old", 77, none, ""⟩] [] "a1"
        ⟨"m2", 5, 0, "hm2", false, ["r1"], "subj2", true, false, false, []⟩
      = newThreadForMessage "m2" "a1" "subj2" 0
    ∧ (∃ r ∈ upsertThreadReferences [] "t1" "a1" "hm" ["r1"],
        r.accountId = "a1" ∧ r.headerMessageId = "r1") := by
  refine ⟨?_, ?_, ?_⟩
  · exact (claim_C5_thread_reconciliation_and_reference_upsert
      [⟨"t1", "a1", "old", 77, none, ""⟩] [] "a1"
      ⟨"m1", 4, 77, "hm", false, ["r1"], "subj", true, false, false, []⟩ [] "" "" []).1
      ⟨"t1", "a1", "old", 77, none, ""⟩ (by decide) rfl
  · exact (claim_C5_thread_reconciliation_and_reference_upsert
      [⟨"t1", "a1", "old", 77, none, ""⟩] [] "a1"
      ⟨"m2", 5, 0, "hm2", false, ["r1"], "subj2", true, false, false, []⟩ [] "" "" []).2.2.2.1
      rfl rfl rfl
  · exact (claim_C5_thread_reconciliation_and_reference_upsert [] [] "a1"
      ⟨"m1", 4, 0, "hm", false, [], "s", true, false, false, []⟩ [] "t1" "hm" ["r1"]).2.2.2.2.2.1
      "r1" (by simp)

/-- Claim C7: syncFolderChangesViaCondstore returns with no changes when
the stored highestmodseq equals the remote value; otherwise it applies each
modified-or-added message by deterministic id (absent: insert; present:
update in place), then — when vanished UIDs are reported (QRESYNC) — unlinks
each of them in the current two-phase scheme and runs no shallow scan,
falling back to the shallow top-500 scan when they are not; finally the
folder's uidnext and highestmodseq are written back. -/
theorem claim_C7_condstore_fast_path
    (ls : FolderLocalStatus) (remoteStatus : IMAPFolderStatus) (folder : Folder)
    (phase : Nat) (store : MessageStore) (syncResult : IMAPSyncResult) (ts : Int) :
    (ls.highestmodseq.getD 0 = remoteStatus.highestModSeqValue →
      syncFolderChangesViaCondstore ls remoteStatus folder phase store syncResult ts
        = ⟨store, ls, false⟩)
    ∧ (∀ (st : MessageStore) (msg : IMAPMessage),
        (containsId st msg.id = false →
          condstoreApplyOne folder ts st msg = st ++ [mkMessage msg folder ts])
        ∧ (∀ localMsg, st.find? (fun m => m.id == msg.id) = some localMsg →
          condstoreApplyOne folder ts st msg
            = storeReplace st msg.id
                (applyUpdateMessage localMsg (MessageAttributesForMessage msg) folder ts)))
    ∧ (ls.highestmodseq.getD 0 ≠ remoteStatus.highestModSeqValue →
      (syncFolderChangesViaCondstore ls remoteStatus folder phase store syncResult ts).status
        = { ls with uidnext := some remoteStatus.uidNext,
                    highestmodseq := some remoteStatus.highestModSeqValue })
    ∧ (ls.highestmodseq.getD 0 ≠ remoteStatus.highestModSeqValue →
      ∀ vanishedUIDs, syncResult.vanishedMessages = some vanishedUIDs →
        (syncFolderChangesViaCondstore ls remoteStatus folder phase store
            syncResult ts).ranShallowScan = false
        ∧ (syncFolderChangesViaCondstore ls remoteStatus folder phase store
            syncResult ts).store
          = (unlinkMessagesMatchingQuery
              (condstoreApplyModified folder ts store syncResult.modifiedOrAddedMessages)
              (vanishedQuery folder vanishedUIDs) phase).1)
    ∧ (ls.highestmodseq.getD 0 ≠ remoteStatus.highestModSeqValue →
      syncResult.vanishedMessages = none →
        (syncFolderChangesViaCondstore ls remoteStatus folder phase store
            syncResult ts).ranShallowScan = true
        ∧ (syncFolderChangesViaCondstore ls remoteStatus folder phase store
            syncResult ts).store
          = condstoreApplyModified folder ts store syncResult.modifiedOrAddedMessages) := by
  refine ⟨?_, ?_, ?_, ?_, ?_⟩
  · intro heq
    have hbeq : (ls.highestmodseq.getD 0 == remoteStatus.highestModSeqValue) = true := by
      simpa using heq
    simp [syncFolderChangesViaCondstore, hbeq]
  · intro st msg
    constructor
    · intro hnew
      have hfind : st.find? (fun m => m.id == msg.id) = none := by
        apply List.find?_eq_none.mpr
        intro x hx hbeq
        have hc : containsId st msg.id = true := List.any_eq_true.mpr ⟨x, hx, hbeq⟩
        rw [hnew] at hc
        cases hc
      simp [condstoreApplyOne, hfind]
    · intro localMsg hfind
      simp [condstoreApplyOne, hfind]
  · intro hne
    have hbeq : (ls.highestmodseq.getD 0 == remoteStatus.highestModSeqValue) = false := by
      simpa using hne
    cases hv : syncResult.vanishedMessages with
    | none => simp [syncFolderChangesViaCondstore, hbeq, hv]
    | some vanishedUIDs => simp [syncFolderChangesViaCondstore, hbeq, hv]
  · intro hne vanishedUIDs hv
    have hbeq : (ls.highestmodseq.getD 0 == remoteStatus.highestModSeqValue) = false := by
      simpa using hne
    constructor
    · simp [syncFolderChangesViaCondstore, hbeq, hv]
    · simp [syncFolderChangesViaCondstore, hbeq, hv]
  · intro hne hv
    have hbeq : (ls.highestmodseq.getD 0 == remoteStatus.highestModSeqValue) = false := by
      simpa using hne
    constructor
    · simp [syncFolderChangesViaCondstore, hbeq, hv]
    · simp [syncFolderChangesViaCondstore, hbeq, hv]

/-- Witness for claim C7: an unchanged highestmodseq returns with no
changes; a changed one with QRESYNC vanished UIDs skips the shallow scan,
unlinks the vanished message and writes back the cursor. -/
theorem claim_C7_witness :
    syncFolderChangesViaCondstore ⟨none, none, some 9, none, none⟩ ⟨1, 50, 10, 9⟩
        ⟨"f1", "a1", "INBOX", "inbox"⟩ 1 [] ⟨[], none⟩ 5
      = ⟨[], ⟨none, none, some 9, none, none⟩, false⟩
    ∧ (syncFolderChangesViaCondstore ⟨none, none, some 9, none, none⟩ ⟨1, 50, 10, 10⟩
        ⟨"f1", "a1", "INBOX", "inbox"⟩ 1
        [⟨"m1", "a1", "s", "h", "t", 17, "f1", "f1", false, false, false, [], (3 : Int)⟩]
        ⟨[], some [17]⟩ 5).ranShallowScan = false
    ∧ (syncFolderChangesViaCondstore ⟨none, none, some 9, none, none⟩ ⟨1, 50, 10, 10⟩
        ⟨"f1", "a1", "INBOX", "inbox"⟩ 1
        [⟨"m1", "a1", "s", "h", "t", 17, "f1", "f1", false, false, false, [], (3 : Int)⟩]
        ⟨[], some [17]⟩ 5).status
      = ⟨none, some 50, some 10, none, none⟩
    ∧ condstoreApplyOne ⟨"f1", "a1", "INBOX", "inbox"⟩ 5 []
        ⟨"m1", 4, 0, "hm", false, [], "s", true, false, false, []⟩
      = [mkMessage ⟨"m1", 4, 0, "hm", false, [], "s", true, false, false, []⟩
          ⟨"f1", "a1", "INBOX", "inbox"⟩ 5] := by
  refine ⟨?_, ?_, ?_, ?_⟩
  · exact (claim_C7_condstore_fast_path ⟨none, none, some 9, none, none⟩ ⟨1, 50, 10, 9⟩
      ⟨"f1", "a1", "INBOX", "inbox"⟩ 1 [] ⟨[], none⟩ 5).1 rfl
  · exact ((claim_C7_condstore_fast_path ⟨none, none, some 9, none, none⟩ ⟨1, 50, 10, 10⟩
      ⟨"f1", "a1", "INBOX", "inbox"⟩ 1
      [⟨"m1", "a1", "s", "h", "t", 17, "f1", "f1", false, false, false, [], (3 : Int)⟩]
      ⟨[], some [17]⟩ 5).2.2.2.1 (by decide) [17] rfl).1
  · have h := (claim_C7_condstore_fast_path ⟨none, none, some 9, none, none⟩ ⟨1, 50, 10, 10⟩
      ⟨"f1", "a1", "INBOX", "inbox"⟩ 1
      [⟨"m1", "a1", "s", "h", "t", 17, "f1", "f1", false, false, false, [], (3 : Int)⟩]
      ⟨[], some [17]⟩ 5).2.2.1 (by decide)
    rw [h]
  · exact ((claim_C7_condstore_fast_path ⟨none, none, some 9, none, none⟩ ⟨1, 50, 10, 10⟩
      ⟨"f1", "a1", "INBOX", "inbox"⟩ 1 [] ⟨[], none⟩ 5).2.1 []
      ⟨"m1", 4, 0, "hm", false, [], "s", true, false, false, []⟩).1 rfl

/-- A row already carrying an unlink sentinel is untouched by a trace with
no observation (every unlink event skips it). -/
theorem applyScanEvents_marked_no_observe (phase uid : Nat) (evs : List ScanEvent)
    (hu : isUnlinkedUID uid = true) (hno : hasObserve evs = false) :
    applyScanEvents phase uid evs = uid := by
  induction evs generalizing uid with
  | nil => rfl
  | cons e rest ih =>
    cases e with
    | unlink =>
      have hno' : hasObserve rest = false := by
        simpa [hasObserve] using hno
      simp only [applyScanEvents, List.foldl_cons, applyScanEvent, hu, if_true]
      exact ih uid hu hno'
    | observe r =>
      exfalso
      simp [hasObserve] at hno

/-- A live row that is never re-observed during a cycle ends the cycle with
the cycle's phase marker (the first unlink stamps it, later unlinks skip
it); with no events at all it is untouched. -/
theorem applyScanEvents_real_no_observe (phase uid : Nat) (evs : List ScanEvent)
    (hreal : isUnlinkedUID uid = false) (hno : hasObserve evs = false)
    (hmark : isUnlinkedUID (unlinkMarker phase) = true) :
    applyScanEvents phase uid evs = if evs.isEmpty then uid else unlinkMarker phase := by
  cases evs with
  | nil => rfl
  | cons e rest =>
    cases e with
    | unlink =>
      have hno' : hasObserve rest = false := by
        simpa [hasObserve] using hno
      simp only [applyScanEvents, List.foldl_cons, applyScanEvent, hreal,
        Bool.false_eq_true, if_false, List.isEmpty_cons]
      exact applyScanEvents_marked_no_observe phase (unlinkMarker phase) rest hmark hno'
    | observe r =>
      exfalso
      simp [hasObserve] at hno

/-- A trace consisting only of observations of real UIDs ends real when it
starts real. -/
theorem applyScanEvents_all_observes_real (phase : Nat) (evs : List ScanEvent) :
    ∀ (uid : Nat),
      evs.all (fun e => match e with
        | .observe _ => true | .unlink => false) = true →
      observesRealUIDs evs = true →
      isUnlinkedUID uid = false →
      isUnlinkedUID (applyScanEvents phase uid evs) = false := by
  induction evs with
  | nil =>
    intro uid _ _ h0
    exact h0
  | cons e rest ih =>
    intro uid hall hreals h0
    cases e with
    | unlink =>
      exfalso
      simp only [List.all_cons, Bool.and_eq_true] at hall
      exact absurd hall.1 (by simp)
    | observe r =>
      simp only [observesRealUIDs, List.all_cons, Bool.and_eq_true] at hreals
      have hr : isUnlinkedUID r = false := by
        simpa using hreals.1
      have hall' : rest.all (fun e => match e with
          | .observe _ => true | .unlink => false) = true := by
        simp only [List.all_cons, Bool.and_eq_true] at hall
        exact hall.2
      simp only [applyScanEvents, List.foldl_cons, applyScanEvent]
      exact ih r hall' hreals.2 hr

/-- A well-formed trace containing an observation of a real UID ends real,
whatever the starting UID. -/
theorem applyScanEvents_observed_real (phase : Nat) (evs : List ScanEvent) :
    ∀ (uid : Nat),
      wellFormedTrace evs = true → hasObserve evs = true →
      observesRealUIDs evs = true →
      isUnlinkedUID (applyScanEvents phase uid evs) = false := by
  induction evs with
  | nil =>
    intro uid _ hobs _
    exfalso
    simp [hasObserve] at hobs
  | cons e rest ih =>
    intro uid hwf hobs hreals
    cases e with
    | unlink =>
      have hwf' : wellFormedTrace rest = true := by
        simpa [wellFormedTrace] using hwf
      have hobs' : hasObserve rest = true := by
        simpa [hasObserve] using hobs
      have hreals' : observesRealUIDs rest = true := by
        simp only [observesRealUIDs, List.all_cons, Bool.and_eq_true] at hreals
        exact hreals.2
      simp only [applyScanEvents, List.foldl_cons]
      exact ih _ hwf' hobs' hreals'
    | observe r =>
      have hall : rest.all (fun e => match e with
          | .observe _ => true | .unlink => false) = true := by
        simpa [wellFormedTrace] using hwf
      simp only [observesRealUIDs, List.all_cons, Bool.and_eq_true] at hreals
      have hr : isUnlinkedUID r = false := by
        simpa using hreals.1
      simp only [applyScanEvents, List.foldl_cons, applyScanEvent]
      exact applyScanEvents_all_observes_real phase rest r hall hreals.2 hr

/-- A cycle's scans never change row ids. -/
theorem applyScans_map_id (phase : Nat) (events : String → List ScanEvent)
    (store : MessageStore) :
    (applyScans phase events store).map Message.id = store.map Message.id := by
  unfold applyScans
  rw [List.map_map]
  rfl

/-- A row that does not match the delete predicate survives the chunked
delete pass. -/
theorem mem_delete_of_pred_false (aid : String) (ph : Nat) (store : MessageStore)
    (m : Message) (hnd : (store.map Message.id).Nodup) (hm : m ∈ store)
    (hp : deleteUnlinkedPred aid ph m = false) :
    m ∈ deleteMessagesStillUnlinkedFromPhase aid ph store := by
  rw [deleteMessagesStillUnlinkedFromPhase_eq_filter aid ph store hnd]
  exact List.mem_filter.mpr ⟨hm, by simp [hp]⟩

/-- The delete pass keeps ids pairwise distinct. -/
theorem nodup_delete (aid : String) (ph : Nat) (store : MessageStore)
    (hnd : (store.map Message.id).Nodup) :
    ((deleteMessagesStillUnlinkedFromPhase aid ph store).map Message.id).Nodup := by
  rw [deleteMessagesStillUnlinkedFromPhase_eq_filter aid ph store hnd]
  exact List.Nodup.sublist (List.Sublist.map Message.id (List.filter_sublist store)) hnd

/-- A non-matching member row is still found by id after the delete pass. -/
theorem containsId_delete_of_pred_false (aid : String) (ph : Nat) (store : MessageStore)
    (m : Message) (hnd : (store.map Message.id).Nodup) (hm : m ∈ store)
    (hp : deleteUnlinkedPred aid ph m = false) :
    containsId (deleteMessagesStillUnlinkedFromPhase aid ph store) m.id = true := by
  apply List.any_eq_true.mpr
  exact ⟨m, mem_delete_of_pred_false aid ph store m hnd hm hp, by simp⟩

/-- A matching member row is gone after the delete pass. -/
theorem containsId_delete_of_pred_true (aid : String) (ph : Nat) (store : MessageStore)
    (m : Message) (hnd : (store.map Message.id).Nodup) (hm : m ∈ store)
    (hp : deleteUnlinkedPred aid ph m = true) :
    containsId (deleteMessagesStillUnlinkedFromPhase aid ph store) m.id = false := by
  rw [deleteMessagesStillUnlinkedFromPhase_eq_filter aid ph store hnd, containsId,
    Bool.eq_false_iff]
  intro hc
  obtain ⟨x, hx, hxb⟩ := List.any_eq_true.mp hc
  have hxmem := List.mem_of_mem_filter hx
  have hxid : x.id = m.id := by simpa using hxb
  have hxeq := eq_of_mem_of_id_eq hnd hxmem hm hxid
  have hxp := (List.mem_filter.mp hx).2
  rw [hxeq] at hxp
  simp [hp] at hxp

/-- Claim C1: two-phase survival.  Take a message of the account with a
real remote UID whose row is observed missing (unlinked, stamping the
marker UINT32_MAX - unlinkPhase) during sync cycle N.  If some folder scan
of cycle N or N+1 re-observes it via insert or update (restoring a real
remote UID), the message is still present in the store after cycle N+1; if
no scan re-observes it, deleteMessagesStillUnlinkedFromPhase(newPhase) has
removed it by the end of cycle N+1, when the flipped phase matches its
marker.  A per-cycle trace carries the outcomes the folder loop can deliver
for one row under one remote snapshot per cycle: unlink events (scans of
folders that no longer list the row) precede observations (the scan of the
folder that does), and observations restore real UIDs. -/
theorem claim_C1_two_phase_survival
    (store : MessageStore) (m : Message) (aid : String) (phase : Nat)
    (eventsN eventsN1 : String → List ScanEvent)
    (hphase : phase = 1 ∨ phase = 2)
    (hnd : (store.map Message.id).Nodup)
    (hm : m ∈ store) (hacct : m.accountId = aid)
    (hreal0 : isUnlinkedUID m.remoteUID = false)
    (hwfN : wellFormedTrace (eventsN m.id) = true)
    (hwfN1 : wellFormedTrace (eventsN1 m.id) = true)
    (hobsrealN : observesRealUIDs (eventsN m.id) = true)
    (hobsrealN1 : observesRealUIDs (eventsN1 m.id) = true)
    (hunlinked : ScanEvent.unlink ∈ eventsN m.id) :
    ((hasObserve (eventsN m.id) = true ∨ hasObserve (eventsN1 m.id) = true) →
      containsId (syncCycleTwoPhase aid (flipPhase phase) eventsN1
        (syncCycleTwoPhase aid phase eventsN store).2).2 m.id = true)
    ∧ ((hasObserve (eventsN m.id) = false ∧ hasObserve (eventsN1 m.id) = false) →
      containsId (syncCycleTwoPhase aid (flipPhase phase) eventsN1
        (syncCycleTwoPhase aid phase eventsN store).2).2 m.id = false) := by
  have hflipflip : flipPhase (flipPhase phase) = phase := by
    rcases hphase with rfl | rfl <;> rfl
  have hmark_p : isUnlinkedUID (unlinkMarker phase) = true := by
    rcases hphase with rfl | rfl <;> decide
  have hmark_fp : isUnlinkedUID (unlinkMarker (flipPhase phase)) = true := by
    rcases hphase with rfl | rfl <;> decide
  have hmarkne : unlinkMarker phase ≠ unlinkMarker (flipPhase phase) := by
    rcases hphase with rfl | rfl <;> decide
  have hcycle2 : (syncCycleTwoPhase aid (flipPhase phase) eventsN1
      (syncCycleTwoPhase aid phase eventsN store).2).2
      = deleteMessagesStillUnlinkedFromPhase aid phase
          (applyScans (flipPhase phase) eventsN1
            (deleteMessagesStillUnlinkedFromPhase aid (flipPhase phase)
              (applyScans phase eventsN store))) := by
    show deleteMessagesStillUnlinkedFromPhase aid (flipPhase (flipPhase phase))
        (applyScans (flipPhase phase) eventsN1
          (deleteMessagesStillUnlinkedFromPhase aid (flipPhase phase)
            (applyScans phase eventsN store))) = _
    rw [hflipflip]
  have hneN : eventsN m.id ≠ [] := List.ne_nil_of_mem hunlinked
  have hempN : (eventsN m.id).isEmpty = false := by
    rw [Bool.eq_false_iff]
    intro hemp
    exact hneN (List.isEmpty_iff.mp hemp)
  have hnd1 : ((applyScans phase eventsN store).map Message.id).Nodup := by
    rw [applyScans_map_id]
    exact hnd
  have hm1mem : ({ m with remoteUID := applyScanEvents phase m.remoteUID (eventsN m.id) })
      ∈ applyScans phase eventsN store :=
    List.mem_map.mpr ⟨m, hm, rfl⟩
  have hu1cases : isUnlinkedUID (applyScanEvents phase m.remoteUID (eventsN m.id)) = false
      ∨ applyScanEvents phase m.remoteUID (eventsN m.id) = unlinkMarker phase := by
    by_cases hN : hasObserve (eventsN m.id) = true
    · exact Or.inl (applyScanEvents_observed_real phase (eventsN m.id) m.remoteUID
        hwfN hN hobsrealN)
    · have hNf : hasObserve (eventsN m.id) = false := Bool.eq_false_iff.mpr hN
      right
      rw [applyScanEvents_real_no_observe phase m.remoteUID (eventsN m.id) hreal0 hNf hmark_p]
      simp [hempN]
  have hpred1 : deleteUnlinkedPred aid (flipPhase phase)
      { m with remoteUID := applyScanEvents phase m.remoteUID (eventsN m.id) } = false := by
    have hne1 : applyScanEvents phase m.remoteUID (eventsN m.id)
        ≠ unlinkMarker (flipPhase phase) := by
      rcases hu1cases with hreal1 | hmarker1
      · intro heq
        rw [heq, hmark_fp] at hreal1
        cases hreal1
      · rw [hmarker1]
        exact hmarkne
    simp [deleteUnlinkedPred, hne1]
  have hm1in1 : ({ m with remoteUID := applyScanEvents phase m.remoteUID (eventsN m.id) })
      ∈ deleteMessagesStillUnlinkedFromPhase aid (flipPhase phase)
          (applyScans phase eventsN store) :=
    mem_delete_of_pred_false _ _ _ _ hnd1 hm1mem hpred1
  have hnds1 : ((deleteMessagesStillUnlinkedFromPhase aid (flipPhase phase)
      (applyScans phase eventsN store)).map Message.id).Nodup :=
    nodup_delete _ _ _ hnd1
  have hnd2 : ((applyScans (flipPhase phase) eventsN1
      (deleteMessagesStillUnlinkedFromPhase aid (flipPhase phase)
        (applyScans phase eventsN store))).map Message.id).Nodup := by
    rw [applyScans_map_id]
    exact hnds1
  have hm2mem : ({ m with remoteUID := (applyScanEvents (flipPhase phase)
      (applyScanEvents phase m.remoteUID (eventsN m.id)) (eventsN1 m.id)) })
      ∈ applyScans (flipPhase phase) eventsN1
          (deleteMessagesStillUnlinkedFromPhase aid (flipPhase phase)
            (applyScans phase eventsN store)) := by
    refine List.mem_map.mpr
      ⟨{ m with remoteUID := applyScanEvents phase m.remoteUID (eventsN m.id) }, hm1in1, ?_⟩
    rfl
  constructor
  · intro hobs
    have hu2ne : applyScanEvents (flipPhase phase)
        (applyScanEvents phase m.remoteUID (eventsN m.id)) (eventsN1 m.id)
        ≠ unlinkMarker phase := by
      by_cases hN1 : hasObserve (eventsN1 m.id) = true
      · have h2real := applyScanEvents_observed_real (flipPhase phase) (eventsN1 m.id)
          (applyScanEvents phase m.remoteUID (eventsN m.id)) hwfN1 hN1 hobsrealN1
        intro heq
        rw [heq, hmark_p] at h2real
        cases h2real
      · have hN1f : hasObserve (eventsN1 m.id) = false := Bool.eq_false_iff.mpr hN1
        have hN : hasObserve (eventsN m.id) = true := by
          rcases hobs with h | h
          · exact h
          · exact absurd h hN1
        have hu1real := applyScanEvents_observed_real phase (eventsN m.id) m.remoteUID
          hwfN hN hobsrealN
        rw [applyScanEvents_real_no_observe (flipPhase phase)
          (applyScanEvents phase m.remoteUID (eventsN m.id)) (eventsN1 m.id)
          hu1real hN1f hmark_fp]
        by_cases hempty : (eventsN1 m.id).isEmpty = true
        · simp only [hempty, if_true]
          intro heq
          rw [heq, hmark_p] at hu1real
          cases hu1real
        · have hef : (eventsN1 m.id).isEmpty = false := Bool.eq_false_iff.mpr hempty
          simp only [hef, Bool.false_eq_true, if_false]
          exact fun heq => hmarkne heq.symm
    have hpred2 : deleteUnlinkedPred aid phase
        { m with remoteUID := (applyScanEvents (flipPhase phase)
            (applyScanEvents phase m.remoteUID (eventsN m.id)) (eventsN1 m.id)) } = false := by
      simp [deleteUnlinkedPred, hu2ne]
    rw [hcycle2]
    exact containsId_delete_of_pred_false aid phase _
      { m with remoteUID := (applyScanEvents (flipPhase phase)
          (applyScanEvents phase m.remoteUID (eventsN m.id)) (eventsN1 m.id)) }
      hnd2 hm2mem hpred2
  · rintro ⟨hnoN, hnoN1⟩
    have hu1eq : applyScanEvents phase m.remoteUID (eventsN m.id) = unlinkMarker phase := by
      rw [applyScanEvents_real_no_observe phase m.remoteUID (eventsN m.id) hreal0 hnoN hmark_p]
      simp [hempN]
    have hu2eq : applyScanEvents (flipPhase phase)
        (applyScanEvents phase m.remoteUID (eventsN m.id)) (eventsN1 m.id)
        = unlinkMarker phase := by
      rw [hu1eq]
      exact applyScanEvents_marked_no_observe (flipPhase phase) (unlinkMarker phase)
        (eventsN1 m.id) hmark_p hnoN1
    have hpred2 : deleteUnlinkedPred aid phase
        { m with remoteUID := (applyScanEvents (flipPhase phase)
            (applyScanEvents phase m.remoteUID (eventsN m.id)) (eventsN1 m.id)) } = true := by
      simp [deleteUnlinkedPred, hacct, hu2eq]
    rw [hcycle2]
    exact containsId_delete_of_pred_true aid phase _
      { m with remoteUID := (applyScanEvents (flipPhase phase)
          (applyScanEvents phase m.remoteUID (eventsN m.id)) (eventsN1 m.id)) }
      hnd2 hm2mem hpred2

/-- Witness for claim C1: a message unlinked in cycle N and re-observed at
UID 7 later in the same cycle is still present after cycle N+1, while a
message unlinked in cycle N and never re-observed is gone after cycle
N+1. -/
theorem claim_C1_witness :
    containsId (syncCycleTwoPhase "a1" (flipPhase 1) (fun _ => [])
      (syncCycleTwoPhase "a1" 1 (fun _ => [ScanEvent.unlink, ScanEvent.observe 7])
        [⟨"m1", "a1", "s", "h", "t", 42, "fA", "fA", false, false, false, [], (3 : Int)⟩]).2).2
      "m1" = true
    ∧ containsId (syncCycleTwoPhase "a1" (flipPhase 1) (fun _ => [])
      (syncCycleTwoPhase "a1" 1 (fun _ => [ScanEvent.unlink])
        [⟨"m1", "a1", "s", "h", "t", 42, "fA", "fA", false, false, false, [], (3 : Int)⟩]).2).2
      "m1" = false := by
  constructor
  · exact (claim_C1_two_phase_survival
      [⟨"m1", "a1", "s", "h", "t", 42, "fA", "fA", false, false, false, [], (3 : Int)⟩]
      ⟨"m1", "a1", "s", "h", "t", 42, "fA", "fA", false, false, false, [], (3 : Int)⟩
      "a1" 1 (fun _ => [ScanEvent.unlink, ScanEvent.observe 7]) (fun _ => [])
      (Or.inl rfl) (by decide) (by simp) rfl (by decide) (by decide) (by decide)
      (by decide) (by decide) (by decide)).1 (Or.inl (by decide))
  · exact (claim_C1_two_phase_survival
      [⟨"m1", "a1", "s", "h", "t", 42, "fA", "fA", false, false, false, [], (3 : Int)⟩]
      ⟨"m1", "a1", "s", "h", "t", 42, "fA", "fA", false, false, false, [], (3 : Int)⟩
      "a1" 1 (fun _ => [ScanEvent.unlink]) (fun _ => [])
      (Or.inl rfl) (by decide) (by simp) rfl (by decide) (by decide) (by decide)
      (by decide) (by decide) (by decide)).2 ⟨by decide, by decide⟩

end MailsyncSpec
